/-
Verification of the agent orchestration subsystem of the Agenticvisual
repository: the goal-oriented mode engine (core/modes/goal_oriented_mode.py),
the tool dispatcher (tools/tool_executor.py), the best-effort JSON extraction
(core/utils/json_utils.py), the tool bodies' copy discipline (tools/common.py,
tools/scatter_plot_tools.py) and the session manager's intent routing
(core/session_manager.py), shallowly embedded in Lean 4.

External collaborators (the Model Endpoint, the Renderer, the individual tool
bodies seen from the engine, k-means and the correlation statistics) are
modelled as oracle parameters, exactly at the call boundary the Python code
uses them through.  Wall-clock timestamps are threaded as opaque values
supplied by the caller.
-/
import Mathlib

set_option autoImplicit false

namespace GoalMode

/-- Role of a transcript turn, as in the `role` field of a DashScope message. -/
inductive Role where
  | user
  | assistant
deriving DecidableEq, Repr

/-- One item of a message's `content` list: a text part or an image part
(the Python code carries images as `data:image/png;base64,...` strings). -/
inductive ContentPart where
  | text (s : String)
  | image (dataUrl : String)
deriving DecidableEq, Repr

/-- A transcript message: `{"role": ..., "content": [...]}`. -/
structure Message where
  role : Role
  content : List ContentPart
deriving DecidableEq, Repr

/-- The `tool_call` object inside the model's parsed decision:
`{"tool": ..., "params": {...}}`.  Parameter values are opaque strings here;
the engine only forwards them (the chart spec is injected separately). -/
structure ToolCall where
  tool : String
  params : List (String × String)
deriving DecidableEq, Repr

/-- The structured decision parsed from the model reply (`parsed_json`):
`goal_achieved`, optional `tool_call`, and the analysis-summary fields the
engine copies into the iteration record. -/
structure Decision where
  goal_achieved : Bool
  tool_call : Option ToolCall
  goal_understanding : Option String
  current_gap : Option String
  action_plan : Option String
  reasoning : Option String
deriving DecidableEq, Repr

/-- A Model Endpoint reply as `vlm_service.call` returns it:
`{"success": ..., "content": ..., "error": ..., "parsed_json": ...}`. -/
structure VlmResp where
  success : Bool
  content : String
  error : Option String
  parsed : Decision
deriving DecidableEq, Repr

/-- A tool-dispatch result as seen by the engine: the success flag, the
optional `vega_spec` key (present for spec-mutating tools), and the optional
`message` / `error` keys.  `σ` is the chart-specification type. -/
structure ToolRes (σ : Type) where
  success : Bool
  vega_spec : Option σ
  message : Option String
  error : Option String
deriving DecidableEq, Repr

/-- A Renderer result: `{"success": ..., "image_base64": ..., "error": ...}`. -/
structure RenderRes where
  success : Bool
  image_base64 : String
  error : Option String
deriving DecidableEq, Repr

/-- The external collaborators of one `execute` run, indexed by round number:
the Endpoint (`vlm.call`), the Tool Dispatcher (`tool_executor.execute`, with
the current spec injected as the `vega_spec` parameter), and the Renderer
(`vega.render`). -/
structure Env (σ : Type) where
  vlm : Nat → VlmResp
  toolExec : Nat → σ → ToolRes σ
  render : Nat → σ → RenderRes

/-- The `tool_execution` sub-record stored inside an iteration record
(tool name, parameters without `vega_spec`, full tool result). -/
structure ToolExecution (σ : Type) where
  tool_name : String
  tool_params : List (String × String)
  tool_result : ToolRes σ
deriving DecidableEq, Repr

/-- One IterationRecord appended to `iterations` (timestamps are not
modelled; every other field of the Python dict is).  `analysis_summary` is
recoverable from `decision`, so it is not duplicated. -/
structure IterRecord (σ : Type) where
  iteration : Nat
  success : Bool
  error : Option String
  decision : Option Decision
  vlm_raw_output : String
  images : List String
  tool_execution : Option (ToolExecution σ)
deriving DecidableEq, Repr

/-- The engine's mutable loop state: the transcript, the iteration records,
and the current spec/image. -/
structure GoalState (σ : Type) where
  messages : List Message
  iterations : List (IterRecord σ)
  currentSpec : σ
  currentImage : String
deriving DecidableEq, Repr

/-- The first user turn of a fresh goal-oriented transcript. -/
def initialUserMsg (userQuery imageBase64 : String) : Message :=
  { role := Role.user,
    content := [ContentPart.text ("请分析这个视图，用户的分析目标是：" ++ userQuery),
                ContentPart.image ("data:image/png;base64," ++ imageBase64)] }

/-- The verbatim assistant turn appended for a model reply. -/
def assistantMsg (contentText : String) : Message :=
  { role := Role.assistant, content := [ContentPart.text contentText] }

/-- Engine-synthesized user turn: mutating tool succeeded and the re-render
succeeded (reports the tool message and shows the new image). -/
def toolSuccessUserMsg (toolName successMsg newImage : String) : Message :=
  { role := Role.user,
    content := [ContentPart.text ("✅ 工具 " ++ toolName ++ " 执行成功。\n\n结果：" ++
                  successMsg ++ "\n\n这是更新后的视图："),
                ContentPart.image ("data:image/png;base64," ++ newImage)] }

/-- Engine-synthesized user turn: the re-render after a successful mutating
tool failed (shows the old image). -/
def renderFailUserMsg (toolName renderError curImage : String) : Message :=
  { role := Role.user,
    content := [ContentPart.text ("❌ 工具 " ++ toolName ++ " 执行后渲染失败：" ++
                  renderError ++ "\n\n当前视图（未变化）："),
                ContentPart.image ("data:image/png;base64," ++ curImage)] }

/-- Engine-synthesized user turn: analysis-only tool succeeded (no new spec). -/
def analysisUserMsg (toolName analysisMsg curImage : String) : Message :=
  { role := Role.user,
    content := [ContentPart.text ("✅ 工具 " ++ toolName ++ " 执行成功。\n\n分析结果：" ++
                  analysisMsg ++ "\n\n视图未变化，当前视图："),
                ContentPart.image ("data:image/png;base64," ++ curImage)] }

/-- Engine-synthesized user turn: the tool failed. -/
def toolFailUserMsg (toolName errorMsg curImage : String) : Message :=
  { role := Role.user,
    content := [ContentPart.text ("❌ 工具 " ++ toolName ++ " 执行失败。\n\n错误原因：" ++
                  errorMsg ++ "\n\n请选择其他可用工具，或如果目标已达成，设置 goal_achieved: true。\n\n当前视图（未变化）："),
                ContentPart.image ("data:image/png;base64," ++ curImage)] }

/-- Stand-in for Python's `str(tool_result)` used as the default analysis
message; only its presence matters to the control flow. -/
def ToolRes.describe {σ : Type} (tr : ToolRes σ) : String :=
  "tool_result success=" ++ toString tr.success

/-- One iteration of `GoalOrientedMode.execute` (loop body of the
`for iteration in range(...)` at goal_oriented_mode.py:47-183).  Returns the
updated state and `true` when the loop continues to the next round
(`false` for the two `break`s: Endpoint failure and `goal_achieved`). -/
def goalStep {σ : Type} (env : Env σ) (round : Nat) (st : GoalState σ) :
    GoalState σ × Bool :=
  let resp := env.vlm round
  if resp.success = false then
    ({ st with
        iterations := st.iterations ++
          [{ iteration := round + 1, success := false,
             error := some (resp.error.getD "Unknown"), decision := none,
             vlm_raw_output := "", images := [], tool_execution := none }] },
     false)
  else
    let decision := resp.parsed
    let msgs1 := st.messages ++ [assistantMsg resp.content]
    let rec0 : IterRecord σ :=
      { iteration := round + 1, success := true, error := none,
        decision := some decision, vlm_raw_output := resp.content,
        images := [st.currentImage], tool_execution := none }
    if decision.goal_achieved then
      ({ st with messages := msgs1, iterations := st.iterations ++ [rec0] }, false)
    else
      match decision.tool_call with
      | some tc =>
        let tr := env.toolExec round st.currentSpec
        let rec1 := { rec0 with tool_execution := some ⟨tc.tool, tc.params, tr⟩ }
        if tr.success then
          match tr.vega_spec with
          | some newSpec =>
            -- goal_oriented_mode.py:124 advances current_spec BEFORE rendering
            let rr := env.render round newSpec
            if rr.success then
              ({ messages := msgs1 ++
                   [toolSuccessUserMsg tc.tool (tr.message.getD "操作完成") rr.image_base64],
                 iterations := st.iterations ++
                   [{ rec1 with images := rec1.images ++ [rr.image_base64] }],
                 currentSpec := newSpec, currentImage := rr.image_base64 }, true)
            else
              ({ messages := msgs1 ++
                   [renderFailUserMsg tc.tool (rr.error.getD "Render failed") st.currentImage],
                 iterations := st.iterations ++ [{ rec1 with success := false }],
                 currentSpec := newSpec, currentImage := st.currentImage }, true)
          | none =>
            ({ st with
                 messages := msgs1 ++
                   [analysisUserMsg tc.tool (tr.message.getD tr.describe) st.currentImage],
                 iterations := st.iterations ++ [rec1] }, true)
        else
          ({ st with
               messages := msgs1 ++
                 [toolFailUserMsg tc.tool (tr.error.getD "Unknown error") st.currentImage],
               iterations := st.iterations ++ [{ rec1 with success := false }] }, true)
      | none =>
        ({ st with messages := msgs1, iterations := st.iterations ++ [rec0] }, true)

/-- The bounded loop: `fuel` remaining rounds, `round` the current 0-based
round index. -/
def goalLoop {σ : Type} (env : Env σ) : Nat → Nat → GoalState σ → GoalState σ
  | 0, _, st => st
  | n + 1, round, st =>
    let p := goalStep env round st
    if p.2 then goalLoop env n (round + 1) p.1 else p.1

/-- The engine-level result dictionary returned by `execute`
(`messages` stands for the transcript written back into the context). -/
structure ExecResult (σ : Type) where
  success : Bool
  mode : String
  iterations : List (IterRecord σ)
  final_spec : σ
  final_image : String
  messages : List Message
deriving DecidableEq, Repr

/-- `GoalOrientedMode.execute` (goal_oriented_mode.py:21-196): initialize the
transcript when the per-session context holds none, run the bounded loop,
return the engine result.  `maxIter` is `Settings.MAX_GOAL_ORIENTED_ITERATIONS`
(15 in the generated config; kept as a parameter). -/
def execute {σ : Type} (env : Env σ) (userQuery : String) (vegaSpec : σ)
    (imageBase64 : String) (maxIter : Nat)
    (ctxMessages : List Message) (ctxIterations : List (IterRecord σ)) :
    ExecResult σ :=
  let messages :=
    if ctxMessages.length = 0 then [initialUserMsg userQuery imageBase64]
    else ctxMessages
  let st := goalLoop env maxIter 0
    { messages := messages, iterations := ctxIterations,
      currentSpec := vegaSpec, currentImage := imageBase64 }
  { success := true, mode := "goal_oriented", iterations := st.iterations,
    final_spec := st.currentSpec, final_image := st.currentImage,
    messages := st.messages }

/-- Shorthand: the parsed decision of round `i` reports goal achievement. -/
def achievedAt {σ : Type} (env : Env σ) (i : Nat) : Bool :=
  (env.vlm i).parsed.goal_achieved

/-- Transcript turns strictly alternate user/assistant. -/
def Alternates (ms : List Message) : Prop :=
  List.Chain' (fun a b => a.role ≠ b.role) ms

instance : DecidablePred Alternates := fun ms =>
  inferInstanceAs (Decidable (List.Chain' _ ms))

/-- A user turn synthesized by the engine (one of the four templates). -/
def EngineSynthesized (m : Message) : Prop :=
  ∃ t s i, m = toolSuccessUserMsg t s i ∨ m = renderFailUserMsg t s i ∨
    m = analysisUserMsg t s i ∨ m = toolFailUserMsg t s i

end GoalMode

namespace Executor

/-- A dynamically-typed Python value as passed in tool parameter / result
dictionaries (tools/tool_executor.py works on plain dicts). -/
inductive PVal where
  | vbool (b : Bool)
  | vnum (n : Int)
  | vstr (s : String)
  | vlist (l : List PVal)
  | vdict (d : List (String × PVal))
deriving Repr

/-- A Python dict with string keys, as an association list in insertion
order (Python 3 dicts preserve insertion order; keys are unique). -/
abbrev Dict := List (String × PVal)

/-- A raised Python exception, as observed by the `except` clause:
`str(e)` and `traceback.format_exc()`. -/
structure PyErr where
  msg : String
  tb : String

/-- One parameter spec of a tool descriptor: `{'type': ..., 'required': ...,
'default': ...}` (the `type` string is not consulted by the executor). -/
structure ParamSpec where
  typ : String
  required : Bool
  default : Option PVal

/-- A registry entry: the implementing function and the ordered parameter
specs.  The function models the Python tool body: it either returns a result
dict or raises. -/
structure ToolInfo where
  fn : Dict → Except PyErr Dict
  category : String
  params : List (String × ParamSpec)

/-- The tool registry: name → ToolInfo, insertion-ordered. -/
abbrev Registry := List (String × ToolInfo)

/-- `ToolRegistry.list_all_tools`. -/
def listAllTools (reg : Registry) : List String := reg.map Prod.fst

/-- One ExecutionRecord of the bounded execution log
(tool_executor.py:110-116).  `timestamp` is the caller-supplied clock value
standing for `datetime.now().isoformat()`. -/
structure ExecRecord where
  timestamp : String
  tool_name : String
  params : Dict
  result : Dict
  success : Bool

/-- `ToolExecutor._validate_params` (tool_executor.py:72-88): the list of
error strings, one per required-but-absent parameter, in descriptor order. -/
def validateParams (specs : List (String × ParamSpec)) (params : Dict) :
    List String :=
  specs.filterMap fun p =>
    if p.2.required ∧ (params.lookup p.1).isNone then
      some ("Missing required parameter: " ++ p.1)
    else none

/-- The names of the required parameters absent from `params`. -/
def missingRequired (specs : List (String × ParamSpec)) (params : Dict) :
    List String :=
  specs.filterMap fun p =>
    if p.2.required ∧ (params.lookup p.1).isNone then some p.1 else none

/-- `ToolExecutor._fill_default_params` (tool_executor.py:90-99): a copy of
`params` with every absent parameter that carries a default appended. -/
def fillDefaultParams (specs : List (String × ParamSpec)) (params : Dict) :
    Dict :=
  specs.foldl
    (fun acc p =>
      match p.2.default with
      | some d => if (acc.lookup p.1).isNone then acc ++ [(p.1, d)] else acc
      | none => acc)
    params

/-- Drop the `vega_spec` entry of a dict (memory-bounding exclusion used by
`_record_execution`). -/
def dropSpec (d : Dict) : Dict := d.filter fun p => p.1 ≠ "vega_spec"

/-- `ToolExecutor._record_execution` (tool_executor.py:101-122): append a
record with `vega_spec` stripped from params and result, then keep only the
last 100 records (`self.execution_history[-100:]`). -/
def recordExecution (now : String) (toolName : String) (params : Dict)
    (result : Dict) (success : Bool) (history : List ExecRecord) :
    List ExecRecord :=
  let history' := history ++
    [{ timestamp := now, tool_name := toolName, params := dropSpec params,
       result := dropSpec result, success := success }]
  if history'.length > 100 then
    history'.drop (history'.length - 100)
  else history'

/-- Outcome of one dispatch: the result dict handed back to the caller, the
execution log after the call, and whether the tool body was invoked
(instrumentation used to state the never-invoked properties). -/
structure ExecOutcome where
  result : Dict
  history : List ExecRecord
  bodyInvoked : Bool

/-- `ToolExecutor.execute` (tool_executor.py:17-70).  `now` stands for the
clock read inside `_record_execution`; `history` is the executor's
`execution_history` before the call. -/
def execute (reg : Registry) (now : String) (history : List ExecRecord)
    (toolName : String) (params : Dict) (validate : Bool := true) :
    ExecOutcome :=
  match reg.lookup toolName with
  | none =>
    { result :=
        [("success", PVal.vbool false),
         ("error", PVal.vstr ("Tool \"" ++ toolName ++ "\" not found")),
         ("available_tools", PVal.vlist ((listAllTools reg).map PVal.vstr))],
      history := history, bodyInvoked := false }
  | some toolInfo =>
    let errors := validateParams toolInfo.params params
    if validate ∧ errors ≠ [] then
      { result :=
          [("success", PVal.vbool false),
           ("error", PVal.vstr "Parameter validation failed"),
           ("details", PVal.vlist (errors.map PVal.vstr))],
        history := history, bodyInvoked := false }
    else
      let filled := fillDefaultParams toolInfo.params params
      match toolInfo.fn filled with
      | Except.ok result =>
        { result := result,
          history := recordExecution now toolName filled result true history,
          bodyInvoked := true }
      | Except.error e =>
        let errorResult : Dict :=
          [("success", PVal.vbool false),
           ("error", PVal.vstr e.msg),
           ("traceback", PVal.vstr e.tb)]
        { result := errorResult,
          history := recordExecution now toolName filled errorResult false history,
          bodyInvoked := true }

end Executor

namespace JsonExtract

/-- A JSON value.  Numbers are modelled as integers, which covers the JSON
subset exercised by the structured-output envelopes this system exchanges;
string contents are taken literally (no escape sequences). -/
inductive Json where
  | jnull
  | jbool (b : Bool)
  | jnum (n : Int)
  | jstr (s : String)
  | jarr (xs : List Json)
  | jobj (fields : List (String × Json))
deriving Repr

/-- Drop leading JSON whitespace. -/
def skipWs : List Char → List Char
  | [] => []
  | c :: cs => if c = ' ' ∨ c = '\n' ∨ c = '\t' ∨ c = '\r' then skipWs cs else c :: cs

/-- Scan a string literal body up to the closing quote. -/
def scanStr : List Char → Option (String × List Char)
  | [] => none
  | c :: cs =>
    if c = '"' then some ("", cs)
    else match scanStr cs with
      | some (s, rest) => some (String.mk (c :: s.toList), rest)
      | none => none

/-- Scan a run of digits (at least one). -/
def scanDigits : List Char → Option (Nat × List Char)
  | cs =>
    let ds := cs.takeWhile Char.isDigit
    if ds = [] then none
    else some ((String.mk ds).toNat!, cs.drop ds.length)

mutual

/-- Fuel-indexed recursive-descent parser for one JSON value; returns the
value and the unconsumed input.  This models `json.loads` on the JSON subset
of `Json`. -/
def parseVal : Nat → List Char → Option (Json × List Char)
  | 0, _ => none
  | fuel + 1, cs =>
    match skipWs cs with
    | [] => none
    | c :: rest =>
      if c = '{' then
        match skipWs rest with
        | '}' :: rest' => some (Json.jobj [], rest')
        | rest' =>
          match parseMembers fuel rest' with
          | some (fields, rest'') =>
            match skipWs rest'' with
            | '}' :: rest''' => some (Json.jobj fields, rest''')
            | _ => none
          | none => none
      else if c = '[' then
        match skipWs rest with
        | ']' :: rest' => some (Json.jarr [], rest')
        | rest' =>
          match parseElems fuel rest' with
          | some (xs, rest'') =>
            match skipWs rest'' with
            | ']' :: rest''' => some (Json.jarr xs, rest''')
            | _ => none
          | none => none
      else if c = '"' then
        match scanStr rest with
        | some (s, rest') => some (Json.jstr s, rest')
        | none => none
      else if c = 't' then
        match rest with
        | 'r' :: 'u' :: 'e' :: rest' => some (Json.jbool true, rest')
        | _ => none
      else if c = 'f' then
        match rest with
        | 'a' :: 'l' :: 's' :: 'e' :: rest' => some (Json.jbool false, rest')
        | _ => none
      else if c = 'n' then
        match rest with
        | 'u' :: 'l' :: 'l' :: rest' => some (Json.jnull, rest')
        | _ => none
      else if c = '-' then
        match scanDigits rest with
        | some (n, rest') => some (Json.jnum (-(n : Int)), rest')
        | none => none
      else if c.isDigit then
        match scanDigits (c :: rest) with
        | some (n, rest') => some (Json.jnum (n : Int), rest')
        | none => none
      else none

/-- Parse the comma-separated members of a JSON object. -/
def parseMembers : Nat → List Char → Option (List (String × Json) × List Char)
  | 0, _ => none
  | fuel + 1, cs =>
    match skipWs cs with
    | '"' :: rest =>
      match scanStr rest with
      | some (key, rest') =>
        match skipWs rest' with
        | ':' :: rest'' =>
          match parseVal fuel rest'' with
          | some (v, rest''') =>
            match skipWs rest''' with
            | ',' :: rest4 =>
              match parseMembers fuel rest4 with
              | some (fields, rest5) => some ((key, v) :: fields, rest5)
              | none => none
            | rest4 => some ([(key, v)], rest4)
          | none => none
        | _ => none
      | none => none
    | _ => none

/-- Parse the comma-separated elements of a JSON array. -/
def parseElems : Nat → List Char → Option (List Json × List Char)
  | 0, _ => none
  | fuel + 1, cs =>
    match parseVal fuel cs with
    | some (v, rest) =>
      match skipWs rest with
      | ',' :: rest' =>
        match parseElems fuel rest' with
        | some (xs, rest'') => some (v :: xs, rest'')
        | none => none
      | rest' => some ([v], rest')
    | none => none

end

/-- `safe_json_loads` (json_utils.py:5-10) with `default=None`: parse the
whole string as one JSON value, `none` on any parse error. -/
def safe_json_loads (cs : List Char) : Option Json :=
  match parseVal (cs.length + 1) cs with
  | some (v, rest) => if skipWs rest = [] then some v else none
  | none => none

/-- Python truthiness of a JSON value (`if result and ...`). -/
def truthy : Json → Bool
  | Json.jnull => false
  | Json.jbool b => b
  | Json.jnum n => n ≠ 0
  | Json.jstr s => s ≠ ""
  | Json.jarr xs => !xs.isEmpty
  | Json.jobj fields => !fields.isEmpty

/-- `isinstance(result, dict)`. -/
def isDict : Json → Bool
  | Json.jobj _ => true
  | _ => false

/-- `text.find(c)`: index of the first occurrence, `none` for Python's `-1`. -/
def strFind (cs : List Char) (c : Char) : Option Nat :=
  cs.findIdx? (· = c)

/-- `text.rfind(c)`: index of the last occurrence, `none` for Python's `-1`. -/
def strRfind (cs : List Char) (c : Char) : Option Nat :=
  match cs.reverse.findIdx? (· = c) with
  | some i => some (cs.length - 1 - i)
  | none => none

/-- `text[start:stop]` for `0 ≤ start ≤ stop`. -/
def slice (cs : List Char) (start stop : Nat) : List Char :=
  (cs.drop start).take (stop - start)

/-- The dict attempt of `extract_json_from_text` (json_utils.py:26-33):
slice from the first `'\x7b'` to the LAST `'\x7d'`, parse, and accept only a
truthy dict. -/
def dictCandidate (cs : List Char) : Option Json :=
  match strFind cs '{', strRfind cs '}' with
  | some startIdx, some endIdx =>
    if startIdx < endIdx then
      match safe_json_loads (slice cs startIdx (endIdx + 1)) with
      | some result =>
        if truthy result ∧ isDict result then some result else none
      | none => none
    else none
  | _, _ => none

/-- The array fallback of `extract_json_from_text` (json_utils.py:36-44):
locate `[...]` the same way; a truthy parse is reported (and then discarded
by the caller). -/
def arrayFallback (cs : List Char) : Option Json :=
  match strFind cs '[', strRfind cs ']' with
  | some startIdx, some endIdx =>
    if startIdx < endIdx then
      match safe_json_loads (slice cs startIdx (endIdx + 1)) with
      | some result => if truthy result then some (Json.jobj []) else none
      | none => none
    else none
  | _, _ => none

/-- `extract_json_from_text` (json_utils.py:19-46), faithful to the source's
find/rfind slicing and fall-through structure.  The return value is a dict;
the array fallback always degenerates to the empty object. -/
def extract_json_from_text (text : String) : Json :=
  match dictCandidate text.toList with
  | some result => result
  | none =>
    match arrayFallback text.toList with
    | some _ => Json.jobj []
    | none => Json.jobj []

/-- Length of the shortest brace-balanced prefix of `cs` (which is expected
to start with `'\x7b'`): used to express the spec's words "first balanced
`\x7b...\x7d` object found in the text". -/
def balancedEndLen (cs : List Char) : Option Nat :=
  go cs 0 0
where
  go : List Char → Int → Nat → Option Nat
    | [], _, _ => none
    | c :: rest, depth, consumed =>
      let depth' := if c = '{' then depth + 1 else if c = '}' then depth - 1 else depth
      if depth' = 0 ∧ (c = '}') then some (consumed + 1)
      else go rest depth' (consumed + 1)

/-- Modelled from the spec's words (not from the source): "the JSON value of
the first balanced `\x7b...\x7d` object found in the text" — take the
shortest balanced-brace segment starting at the first `'\x7b'` and parse it. -/
def firstBalancedObjectValue (text : String) : Option Json :=
  let cs := text.toList
  match strFind cs '{' with
  | some startIdx =>
    match balancedEndLen (cs.drop startIdx) with
    | some len => safe_json_loads ((cs.drop startIdx).take len)
    | none => none
  | none => none

/-- Modelled from the spec's words, amended per the observed code behaviour:
the extraction returns the JSON parse of the segment spanning the first
`'\x7b'` through the last `'\x7d'` when that segment parses as a non-empty
object, and the empty object in every other case. -/
def extractAmendedSpec (text : String) : Json :=
  let cs := text.toList
  match strFind cs '{', strRfind cs '}' with
  | some startIdx, some endIdx =>
    if startIdx < endIdx then
      match safe_json_loads (slice cs startIdx (endIdx + 1)) with
      | some (Json.jobj fields) =>
        if fields.isEmpty then Json.jobj [] else Json.jobj fields
      | _ => Json.jobj []
    else Json.jobj []
  | _, _ => Json.jobj []

end JsonExtract

namespace ToolBodies

/-!
Tool bodies operate on a mutable Python chart-spec dict.  The aliasing that
matters for the copy-discipline invariant is the one between the caller's
data rows and the rows the tool reads and writes: a row is a mutable dict,
shared unless `copy.deepcopy` duplicated it.  We model the data rows as a
heap (`Store`, address-indexed), the rest of the spec by value (it is only
ever written through the deep copy), and `copy.deepcopy` as allocation of
fresh row addresses.  Each tool body returns the heap after the call, so a
theorem can state that every pre-existing address is untouched.
-/

/-- A primitive field value inside a data row. -/
inductive RVal where
  | rnum (n : Int)
  | rstr (s : String)
deriving DecidableEq, Repr

/-- A data row: one mutable `{field: value}` dict, insertion-ordered. -/
abbrev Row := List (String × RVal)

/-- The heap of row objects; an address is an index. -/
abbrev Store := List Row

/-- Read the row at an address (closed world: absent address reads as `[]`,
never reached by the embedded code). -/
def fetch (store : Store) (a : Nat) : Row := store.getD a []

/-- `row.get(key)`. -/
def rowGet (r : Row) (k : String) : Option RVal := r.lookup k

/-- `row[key] = v`: overwrite in place, else append (Python dict semantics). -/
def rowSet (r : Row) (k : String) (v : RVal) : Row :=
  if (r.lookup k).isSome then
    r.map fun p => if p.1 = k then (k, v) else p
  else r ++ [(k, v)]

/-- In-place update of the row object at address `a`. -/
def storeSet (store : Store) (a : Nat) (k : String) (v : RVal) : Store :=
  store.set a (rowSet (fetch store a) k v)

/-- An encoding channel (`encoding.x`, `encoding.color`, ...) with exactly
the sub-fields the embedded tools read or write. -/
structure Chan where
  field : Option String
  ctype : Option String
  scaleDomain : Option (Int × Int)
  scaleScheme : Option String
  legendTitle : Option String
deriving DecidableEq, Repr

/-- A channel fresh from `new_spec['encoding'][axis] = dict()`. -/
def emptyChan : Chan :=
  { field := none, ctype := none, scaleDomain := none, scaleScheme := none,
    legendTitle := none }

/-- The chart specification: encoding channels by value, data rows by
address into the `Store`. -/
structure SpecH where
  encoding : List (String × Chan)
  dataValues : List Nat
deriving DecidableEq, Repr

/-- `spec.get('encoding', dict()).get(channel)`. -/
def encGet (spec : SpecH) (ch : String) : Option Chan := spec.encoding.lookup ch

/-- `spec['encoding'][channel] = c`: overwrite in place, else append. -/
def encSet (spec : SpecH) (ch : String) (c : Chan) : SpecH :=
  { spec with
      encoding :=
        if (spec.encoding.lookup ch).isSome then
          spec.encoding.map fun p => if p.1 = ch then (ch, c) else p
        else spec.encoding ++ [(ch, c)] }

/-- `new_spec['encoding'][axis]['scale']['domain'] = vals` with the
create-missing-dict steps of common.py:165-173. -/
def setScaleDomain (spec : SpecH) (axis : String) (vals : Int × Int) : SpecH :=
  let c := (encGet spec axis).getD emptyChan
  encSet spec axis { c with scaleDomain := some vals }

/-- `copy.deepcopy` restricted to this model: the by-value part of the spec
is duplicated implicitly, the rows are copied into fresh addresses at the
end of the store. -/
def deepcopySpec (store : Store) (spec : SpecH) : Store × SpecH :=
  (store ++ spec.dataValues.map (fetch store),
   { spec with
       dataValues := List.range' store.length spec.dataValues.length })

/-- The result dict of `zoom` / spec-reading tools; optional keys are
`Option`s.  Float-formatted message fragments (the percentage) are elided. -/
structure ZoomRes where
  success : Bool
  operation : Option String
  vega_spec : Option SpecH
  error : Option String
  original_count : Option Nat
  filtered_count : Option Nat
  zoom_range : Option ((Int × Int) × (Int × Int))
  message : Option String
deriving DecidableEq, Repr

/-- The point-in-rectangle test of the `zoom` list comprehension
(common.py:142-148).  A present non-numeric value makes Python's chained
comparison raise `TypeError`, modelled as `Except.error`. -/
def pointInRange (store : Store) (xf yf : String) (xr yr : Int × Int)
    (a : Nat) : Except String Bool :=
  match rowGet (fetch store a) xf with
  | none => Except.ok false
  | some xv =>
    match rowGet (fetch store a) yf with
    | none => Except.ok false
    | some yv =>
      match xv, yv with
      | RVal.rnum x, RVal.rnum y =>
        Except.ok (decide (xr.1 ≤ x ∧ x ≤ xr.2 ∧ yr.1 ≤ y ∧ y ≤ yr.2))
      | _, _ => Except.error "TypeError: comparison not supported"

/-- The filtering list comprehension over the row addresses. -/
def filterInRange (store : Store) (xf yf : String) (xr yr : Int × Int) :
    List Nat → Except String (List Nat)
  | [] => Except.ok []
  | a :: rest => do
    let keep ← pointInRange store xf yf xr yr a
    let tail ← filterInRange store xf yf xr yr rest
    return (if keep then a :: tail else tail)

/-- `zoom` (tools/common.py:102-186): deep-copy, unpack the area, read the
encoded fields, filter the rows to the range, write back the filtered list
and the axis scale domains.  Returns the heap after the call and the result
(or the propagated exception). -/
def zoom (store : Store) (spec : SpecH) (area : List Int) :
    Store × Except String ZoomRes :=
  let sc := deepcopySpec store spec
  let store1 := sc.1
  let newSpec := sc.2
  match area with
  | [x1, y1, x2, y2] =>
    let xRange : Int × Int := (min x1 x2, max x1 x2)
    let yRange : Int × Int := (min y1 y2, max y1 y2)
    match (encGet newSpec "x").bind Chan.field,
        (encGet newSpec "y").bind Chan.field with
    | some xf, some yf =>
      let dataAddrs := newSpec.dataValues
      if dataAddrs.isEmpty then
        (store1, Except.ok
          { success := false, operation := some "zoom",
            error := some "No data found in specification",
            vega_spec := none, original_count := none, filtered_count := none,
            zoom_range := none, message := none })
      else
        let originalCount := dataAddrs.length
        match filterInRange store1 xf yf xRange yRange dataAddrs with
        | Except.error e => (store1, Except.error e)
        | Except.ok filtered =>
          if filtered.length = 0 then
            (store1, Except.ok
              { success := false, operation := some "zoom",
                error := some "No data points found in range",
                vega_spec := none, original_count := some originalCount,
                filtered_count := some 0, zoom_range := none, message := none })
          else
            let spec2 := { newSpec with dataValues := filtered }
            let spec3 := setScaleDomain (setScaleDomain spec2 "x" xRange) "y" yRange
            (store1, Except.ok
              { success := true, operation := some "zoom",
                vega_spec := some spec3, error := none,
                original_count := some originalCount,
                filtered_count := some filtered.length,
                zoom_range := some (xRange, yRange),
                message := some ("Zoomed: showing " ++ toString filtered.length ++
                  " out of " ++ toString originalCount ++ " points") })
    | _, _ =>
      (store1, Except.ok
        { success := false, operation := some "zoom",
          error := some "Cannot find required x or y fields in encoding",
          vega_spec := none, original_count := none, filtered_count := none,
          zoom_range := none, message := none })
  | _ =>
    -- `x1, y1, x2, y2 = area` raises for any other arity
    (store1, Except.error "ValueError: cannot unpack area")

/-- Per-cluster statistics entry (`cluster_statistics`). -/
structure ClusterStat where
  cluster_id : Nat
  size : Nat
  center : Int × Int
deriving DecidableEq, Repr

/-- The result dict of `identify_clusters`. -/
structure ClusterRes where
  success : Bool
  operation : Option String
  vega_spec : Option SpecH
  error : Option String
  n_clusters : Option Nat
  cluster_statistics : Option (List ClusterStat)
  message : Option String
deriving DecidableEq, Repr

/-- The rows with both encoded fields present, with their addresses
(`points` plus `valid_indices` of scatter_plot_tools.py:59-64). -/
def validPoints (store : Store) (xf yf : String) (addrs : List Nat) :
    List (Nat × RVal × RVal) :=
  addrs.filterMap fun a =>
    match rowGet (fetch store a) xf, rowGet (fetch store a) yf with
    | some xv, some yv => some (a, xv, yv)
    | _, _ => none

/-- Numeric projection of the collected points; `none` when some collected
value is non-numeric (on which `KMeans.fit` would raise). -/
def numericPoints (pts : List (Nat × RVal × RVal)) :
    Option (List (Int × Int)) :=
  pts.mapM fun p =>
    match p.2.1, p.2.2 with
    | RVal.rnum x, RVal.rnum y => some (x, y)
    | _, _ => none

/-- Write the cluster labels into the valid rows in place
(scatter_plot_tools.py:75-76). -/
def writeLabels (clusterField : String) (store : Store)
    (assign : List (Nat × Nat)) : Store :=
  assign.foldl (fun s p => storeSet s p.1 clusterField (RVal.rnum (p.2 : Int))) store

/-- `identify_clusters` (tools/scatter_plot_tools.py:47-102).  `kmeans` is
the sklearn collaborator: given the points and the cluster count it returns
the per-point labels and the cluster centers. -/
def identify_clusters
    (kmeans : List (Int × Int) → Nat → List Nat × List (Int × Int))
    (store : Store) (spec : SpecH) (n_clusters : Nat := 3) :
    Store × Except String ClusterRes :=
  let sc := deepcopySpec store spec
  let store1 := sc.1
  let newSpec := sc.2
  match (encGet newSpec "x").bind Chan.field,
      (encGet newSpec "y").bind Chan.field with
  | some xf, some yf =>
    let pts := validPoints store1 xf yf newSpec.dataValues
    if pts.length < n_clusters then
      (store1, Except.ok
        { success := false, operation := none, vega_spec := none,
          error := some ("Not enough points for " ++ toString n_clusters ++ " clusters"),
          n_clusters := none, cluster_statistics := none, message := none })
    else
      match numericPoints pts with
      | none => (store1, Except.error "ValueError: could not convert data to float")
      | some points =>
        let km := kmeans points n_clusters
        let labels := km.1
        let centers := km.2
        let clusterField := "cluster_" ++ toString n_clusters
        let store2 := writeLabels clusterField store1
          ((pts.map (fun p => p.1)).zip labels)
        let spec2 := encSet newSpec "color"
          { field := some clusterField, ctype := some "nominal",
            scaleDomain := none, scaleScheme := some "category10",
            legendTitle := some "Cluster" }
        let stats := (List.range n_clusters).map fun i =>
          { cluster_id := i,
            size := (labels.filter (· = i)).length,
            center := centers.getD i (0, 0) : ClusterStat }
        (store2, Except.ok
          { success := true, operation := some "identify_clusters",
            vega_spec := some spec2, error := none,
            n_clusters := some n_clusters, cluster_statistics := some stats,
            message := some ("Identified " ++ toString n_clusters ++ " clusters") })
  | _, _ =>
    (store1, Except.ok
      { success := false, operation := none, vega_spec := none,
        error := some "Cannot find required fields", n_clusters := none,
        cluster_statistics := none, message := none })

/-- The result dict of `calculate_correlation` (never carries a spec). -/
structure CorrRes where
  success : Bool
  operation : Option String
  method : Option String
  error : Option String
  correlation_coefficient : Option ℚ
  p_value : Option ℚ
  strength : Option String
  direction : Option String
  message : Option String
deriving DecidableEq, Repr

/-- Numeric projections of the paired values; `none` when a collected value
is non-numeric (on which `pearsonr`/`spearmanr` would raise). -/
def numericPairs (pts : List (Nat × RVal × RVal)) :
    Option (List Int × List Int) :=
  (numericPoints pts).map fun l => (l.map Prod.fst, l.map Prod.snd)

/-- `calculate_correlation` (tools/scatter_plot_tools.py:105-143): a pure
read of the spec — no deep copy, no writes.  `pearson`/`spearman` are the
scipy collaborators returning (coefficient, p-value). -/
def calculate_correlation
    (pearson spearman : List Int → List Int → ℚ × ℚ)
    (store : Store) (spec : SpecH) (method : String := "pearson") :
    Store × Except String CorrRes :=
  match (encGet spec "x").bind Chan.field, (encGet spec "y").bind Chan.field with
  | some xf, some yf =>
    let pts := validPoints store xf yf spec.dataValues
    if pts.length < 2 then
      (store, Except.ok
        { success := false, operation := none, method := none,
          error := some "Not enough data points",
          correlation_coefficient := none, p_value := none,
          strength := none, direction := none, message := none })
    else
      match numericPairs pts with
      | none => (store, Except.error "ValueError: could not convert data to float")
      | some pair =>
        let outcome :=
          if method = "pearson" then some (pearson pair.1 pair.2)
          else if method = "spearman" then some (spearman pair.1 pair.2)
          else none
        match outcome with
        | none =>
          (store, Except.ok
            { success := false, operation := none, method := none,
              error := some ("Unsupported method: " ++ method),
              correlation_coefficient := none, p_value := none,
              strength := none, direction := none, message := none })
        | some cp =>
          let c := cp.1
          let strength :=
            if (7 : ℚ)/10 ≤ |c| then "strong"
            else if (2 : ℚ)/5 ≤ |c| then "moderate" else "weak"
          let direction := if 0 < c then "positive" else "negative"
          (store, Except.ok
            { success := true, operation := some "calculate_correlation",
              method := some method, error := none,
              correlation_coefficient := some c, p_value := some cp.2,
              strength := some strength, direction := some direction,
              message := some (method ++ " correlation (" ++ strength ++ " " ++ direction ++ ")") })
  | _, _ =>
    (store, Except.ok
      { success := false, operation := none, method := none,
        error := some "Cannot find required fields",
        correlation_coefficient := none, p_value := none,
        strength := none, direction := none, message := none })

end ToolBodies

namespace Session

/-- The closed intent set (config/intent_types.py). -/
inductive IntentType where
  | chitchat
  | explicit_analysis
  | vague_exploration
  | unknown
deriving DecidableEq, Repr

/-- The enum's string value. -/
def IntentType.value : IntentType → String
  | IntentType.chitchat => "chitchat"
  | IntentType.explicit_analysis => "explicit_analysis"
  | IntentType.vague_exploration => "vague_exploration"
  | IntentType.unknown => "unknown"

/-- Iteration order of `for it in IntentType`. -/
def intentMembers : List IntentType :=
  [IntentType.chitchat, IntentType.explicit_analysis,
   IntentType.vague_exploration, IntentType.unknown]

/-- The greeting keyword list of `_recognize_intent`
(session_manager.py:169-172). -/
def greetings : List String :=
  ["你好", "您好", "hi", "hello", "hey", "嗨", "hola",
   "早上好", "中午好", "下午好", "晚上好", "早安", "晚安"]

/-- The politeness keyword list (session_manager.py:175-178). -/
def politeWords : List String :=
  ["谢谢", "多谢", "thanks", "thank you", "thx",
   "再见", "拜拜", "bye", "goodbye", "see you"]

/-- The system/help keyword list (session_manager.py:181-185). -/
def systemQueries : List String :=
  ["你是谁", "你叫什么", "你能做什么", "你会什么",
   "怎么用", "怎么使用", "如何使用", "使用方法",
   "what can you do", "how to use", "who are you"]

/-- The explicit-action keyword list (session_manager.py:188-203). -/
def explicitActions : List String :=
  ["筛选", "过滤", "filter", "select",
   "放大", "缩小", "zoom", "scale",
   "高亮", "突出", "highlight", "emphasize",
   "排序", "sort", "order",
   "显示", "隐藏", "show", "hide",
   "对比", "比较", "compare", "contrast",
   "选择", "选中", "choose", "pick",
   "调整", "修改", "adjust", "modify",
   "聚焦", "focus",
   "只看", "只显示", "only show",
   "去掉", "删除", "remove", "delete",
   "添加", "增加", "add",
   "改成", "换成", "change to",
   "设置为", "set to"]

/-- Python's `needle in haystack` on strings. -/
def containsSub (haystack needle : String) : Bool :=
  decide (needle.toList <:+: haystack.toList)

/-- `str.lower()`, character-wise (ASCII case folding; CJK unaffected). -/
def pyLower (s : String) : String := String.mk (s.toList.map Char.toLower)

/-- `str.strip()`: drop leading and trailing whitespace. -/
def stripChars (cs : List Char) : List Char :=
  ((cs.dropWhile Char.isWhitespace).reverse.dropWhile Char.isWhitespace).reverse

/-- `user_query.lower().strip()`. -/
def normalizeQuery (userQuery : String) : String :=
  String.mk (stripChars (pyLower userQuery).toList)

/-- The keyword phase of `_recognize_intent` (session_manager.py:162-227):
the lexical rules in source order, `none` when no rule fires and the code
falls through to the Endpoint. -/
def quickIntent (userQuery : String) : Option IntentType :=
  let queryLower := normalizeQuery userQuery
  let lengthRules : Option IntentType :=
    if queryLower.length < 10 then
      match greetings.find? (fun g => containsSub queryLower g) with
      | some _ => some IntentType.chitchat
      | none =>
        match politeWords.find? (fun p => containsSub queryLower p) with
        | some _ => some IntentType.chitchat
        | none => none
    else none
  match lengthRules with
  | some it => some it
  | none =>
    match systemQueries.find? (fun s => containsSub queryLower s) with
    | some _ => some IntentType.chitchat
    | none =>
      match explicitActions.find? (fun a => containsSub queryLower a) with
      | some _ => some IntentType.explicit_analysis
      | none => none

/-- An Endpoint reply to the intent-recognition prompt: the success flag and
the `intent_type` label extracted from `parsed_json`
(`parsed.get("intent_type", "unknown")`). -/
structure VlmIntentResp where
  success : Bool
  intent_str : String
deriving DecidableEq, Repr

/-- The Endpoint fallback of `_recognize_intent` (session_manager.py:229-250):
match the returned label against the enum values, `UNKNOWN` on Endpoint
failure or an unrecognized label. -/
def vlmIntentFallback (resp : VlmIntentResp) : IntentType :=
  if resp.success then
    match intentMembers.find? (fun it => it.value = resp.intent_str) with
    | some it => it
    | none => IntentType.unknown
  else IntentType.unknown

/-- `_recognize_intent`, instrumented: the classified intent together with
whether the Endpoint was consulted.  `vlmResp` is the oracle reply the
Endpoint would give if called. -/
def recognizeIntent (vlmResp : VlmIntentResp) (userQuery : String) :
    IntentType × Bool :=
  match quickIntent userQuery with
  | some it => (it, false)
  | none => (vlmIntentFallback vlmResp, true)

/-- A mode-engine result as `process_query` consumes it: the success flag
and the optional `final_spec` / `final_image` keys (`result.get(...)`).
`σ` is the chart-spec type. -/
structure ModeResult (σ : Type) where
  success : Bool
  final_spec : Option σ
  final_image : Option String
deriving DecidableEq, Repr

/-- The per-session mutable state touched by `process_query`; `μ` is the
opaque per-mode conversation context the engines read and write through the
`session` dict (e.g. `chitchat_messages`, `goal_oriented_messages`). -/
structure SessionState (σ μ : Type) where
  vega_spec : σ
  current_image : String
  chart_type : String
  modeContext : μ
  history : List (String × String)   -- (query, intent.value) pairs of the log
deriving DecidableEq, Repr

/-- Which mode engine a query was routed to. -/
inductive EngineTag where
  | chitchatEngine
  | goalEngine
  | exploreEngine
deriving DecidableEq, Repr

/-- The three mode engines as oracles.  Each consumes the arguments the
Python code passes it and returns its result plus the updated mode context. -/
structure Engines (σ μ : Type) where
  chitchat : String → String → μ → ModeResult σ × μ
  goal : String → σ → String → String → μ → ModeResult σ × μ
  explore : String → σ → String → String → μ → ModeResult σ × μ

/-- The intent dispatch of `process_query` (session_manager.py:129-150):
route to a mode engine and apply the Goal-oriented branch's write-back of
`final_spec` / `final_image`. -/
def dispatchByIntent {σ μ : Type} (eng : Engines σ μ) (intent : IntentType)
    (userQuery : String) (st : SessionState σ μ) :
    ModeResult σ × SessionState σ μ × EngineTag :=
  if intent = IntentType.chitchat then
    let r := eng.chitchat userQuery st.current_image st.modeContext
    (r.1, { st with modeContext := r.2 }, EngineTag.chitchatEngine)
  else if intent = IntentType.explicit_analysis then
    let r := eng.goal userQuery st.vega_spec st.current_image st.chart_type
      st.modeContext
    let st1 := { st with modeContext := r.2 }
    let st2 :=
      if r.1.success then
        { st1 with
            vega_spec := r.1.final_spec.getD st.vega_spec,
            current_image := r.1.final_image.getD st.current_image }
      else st1
    (r.1, st2, EngineTag.goalEngine)
  else
    -- the `else` arm: VAGUE_EXPLORATION and every other intent, UNKNOWN included
    let r := eng.explore userQuery st.vega_spec st.current_image st.chart_type
      st.modeContext
    (r.1, { st with modeContext := r.2 }, EngineTag.exploreEngine)

/-- `process_query` for an existing session (session_manager.py:104-160):
recognize the intent, dispatch, append the history entry.  `vlmResp` is the
oracle reply the intent-recognition Endpoint call would give. -/
def processQuery {σ μ : Type} (eng : Engines σ μ) (vlmResp : VlmIntentResp)
    (userQuery : String) (st : SessionState σ μ) :
    ModeResult σ × SessionState σ μ × EngineTag :=
  let intent := (recognizeIntent vlmResp userQuery).1
  let out := dispatchByIntent eng intent userQuery st
  (out.1,
   { out.2.1 with history := out.2.1.history ++ [(userQuery, intent.value)] },
   out.2.2)

end Session


/-!  Concrete demonstration inputs used by the closed witness and
counterexample theorems below. -/

/-- A decision with only the achievement flag and tool call filled. -/
def demoDecision (ach : Bool) (tc : Option GoalMode.ToolCall) : GoalMode.Decision :=
  { goal_achieved := ach, tool_call := tc, goal_understanding := none,
    current_gap := none, action_plan := none, reasoning := none }

/-- Endpoint always succeeds, reports achievement on round index 1 (the
second round), never calls a tool. -/
def envAchieveAt2 : GoalMode.Env Nat :=
  { vlm := fun i =>
      { success := true, content := "reply", error := none,
        parsed := demoDecision (i == 1) none },
    toolExec := fun _ _ =>
      { success := false, vega_spec := none, message := none, error := none },
    render := fun _ _ =>
      { success := true, image_base64 := "img", error := none } }

/-- Endpoint always picks the `zoom` tool; the tool succeeds and returns a
new spec; the renderer always fails. -/
def envRenderFail : GoalMode.Env Nat :=
  { vlm := fun _ =>
      { success := true, content := "use zoom", error := none,
        parsed := demoDecision false (some { tool := "zoom", params := [] }) },
    toolExec := fun _ s =>
      { success := true, vega_spec := some (s + 1), message := some "ok",
        error := none },
    render := fun _ _ =>
      { success := false, image_base64 := "", error := some "boom" } }

/-- A loop state as it stands at the first round of a fresh execution. -/
def stDemo : GoalMode.GoalState Nat :=
  { messages := [GoalMode.initialUserMsg "q" "img0"], iterations := [],
    currentSpec := 0, currentImage := "img0" }

/-- Endpoint always succeeds, never achieves, never calls a tool. -/
def envNoTool : GoalMode.Env Nat :=
  { vlm := fun _ =>
      { success := true, content := "thinking", error := none,
        parsed := demoDecision false none },
    toolExec := fun _ _ =>
      { success := false, vega_spec := none, message := none, error := none },
    render := fun _ _ =>
      { success := true, image_base64 := "img", error := none } }

/-- Endpoint calls a tool on round 0 (mutating, render succeeds) and
declares achievement on round 1. -/
def envToolThenAchieve : GoalMode.Env Nat :=
  { vlm := fun i =>
      { success := true, content := "r", error := none,
        parsed :=
          if i = 0 then demoDecision false (some { tool := "zoom", params := [] })
          else demoDecision true none },
    toolExec := fun _ s =>
      { success := true, vega_spec := some (s + 1), message := some "ok",
        error := none },
    render := fun _ _ =>
      { success := true, image_base64 := "im1", error := none } }

/-- A registry entry shaped like `sort_bars`: `vega_spec` required, `order`
optional with default, body always returns a success dict. -/
def demoToolInfo : Executor.ToolInfo :=
  { fn := fun _ => Except.ok
      [("success", Executor.PVal.vbool true),
       ("message", Executor.PVal.vstr "ok")],
    category := "action",
    params :=
      [("vega_spec", { typ := "dict", required := true, default := none }),
       ("order", { typ := "str", required := false,
                   default := some (Executor.PVal.vstr "descending") })] }

/-- A one-tool registry. -/
def demoRegistry : Executor.Registry := [("sort_bars", demoToolInfo)]

/-- A one-row store. -/
def demoStore : ToolBodies.Store := [[("x", ToolBodies.RVal.rnum 1), ("y", ToolBodies.RVal.rnum 2)]]

/-- A scatter-like spec addressing the one row of `demoStore`. -/
def demoSpecH : ToolBodies.SpecH :=
  { encoding :=
      [("x", { ToolBodies.emptyChan with field := some "x" }),
       ("y", { ToolBodies.emptyChan with field := some "y" })],
    dataValues := [0] }

/-- A trivial k-means collaborator: everything in cluster 0, center (0,0). -/
def demoKmeans (pts : List (Int × Int)) (_ : Nat) : List Nat × List (Int × Int) :=
  (pts.map fun _ => 0, [(0, 0)])

/-- A trivial correlation collaborator. -/
def demoCorr (_ _ : List Int) : ℚ × ℚ := (1, 0)

/-- Mode engines for the routing witness: the goal engine advances the spec. -/
def demoEngines : Session.Engines Nat Nat :=
  { chitchat := fun _ _ m => ({ success := true, final_spec := none, final_image := none }, m),
    goal := fun _ s _ _ m =>
      ({ success := true, final_spec := some (s + 1), final_image := some "new" }, m),
    explore := fun _ _ _ _ m => ({ success := true, final_spec := none, final_image := none }, m) }

/-- A session with spec 7. -/
def demoSession : Session.SessionState Nat Nat :=
  { vega_spec := 7, current_image := "img", chart_type := "scatter_plot",
    modeContext := 0, history := [] }

/-!  Shared helper lemmas. -/

/-- A successful association-list lookup comes from a member pair. -/
theorem lookup_mem {β : Type} (l : List (String × β)) (k : String) (v : β)
    (h : l.lookup k = some v) : (k, v) ∈ l := by
  induction l with
  | nil => simp [List.lookup] at h
  | cons hd tl ih =>
    rw [List.lookup_cons] at h
    split at h
    · next heq => simp at heq; cases h; simp [heq]
    · exact List.mem_cons_of_mem _ (ih h)

/-- Looking up a key that a filter removed yields nothing. -/
theorem lookup_filter_ne_none {β : Type} (l : List (String × β)) (k : String) :
    (l.filter fun p => p.1 ≠ k).lookup k = none := by
  induction l with
  | nil => rfl
  | cons hd tl ih =>
    obtain ⟨a, b⟩ := hd
    rw [List.filter_cons]
    by_cases h : a = k
    · rw [if_neg (by simp [h])]
      exact ih
    · rw [if_pos (by simp [h])]
      rw [List.lookup_cons]
      have hne : (k == a) = false := by simp [Ne.symm h]
      rw [hne]
      exact ih

/-- C9: the intent classifier settles `"你好"` (short query containing a
greeting token) as Chitchat and `"筛选出销量前十的商品"` (containing the
explicit-action token `筛选`) as ExplicitGoal purely lexically: the result is
the same for every Endpoint oracle and the Endpoint is not consulted
(second component `false`). -/
theorem lexical_intent_classification (resp : Session.VlmIntentResp) :
    Session.recognizeIntent resp "你好" = (Session.IntentType.chitchat, false) ∧
    Session.recognizeIntent resp "筛选出销量前十的商品" =
      (Session.IntentType.explicit_analysis, false) := by
  constructor
  · unfold Session.recognizeIntent
    rw [show Session.quickIntent "你好" = some Session.IntentType.chitchat from by decide]
  · unfold Session.recognizeIntent
    rw [show Session.quickIntent "筛选出销量前十的商品" =
      some Session.IntentType.explicit_analysis from by decide]

/-- C10: every classified intent other than Chitchat and ExplicitGoal —
the Unknown fallback included — is routed to the autonomous-exploration
engine with the session's spec and image left untouched; the Chitchat branch
leaves them untouched as well, and only the ExplicitGoal branch writes the
engine's final spec/image back on success.  A query matching no lexical rule
on which the Endpoint fails classifies as Unknown and still reaches the
exploration engine through `process_query`. -/
theorem intent_routing_to_explore {σ μ : Type} (eng : Session.Engines σ μ)
    (intent : Session.IntentType) (q : String) (st : Session.SessionState σ μ)
    (h1 : intent ≠ Session.IntentType.chitchat)
    (h2 : intent ≠ Session.IntentType.explicit_analysis) :
    ((Session.dispatchByIntent eng intent q st).2.2 = Session.EngineTag.exploreEngine ∧
     (Session.dispatchByIntent eng intent q st).2.1.vega_spec = st.vega_spec ∧
     (Session.dispatchByIntent eng intent q st).2.1.current_image = st.current_image) ∧
    ((Session.dispatchByIntent eng Session.IntentType.chitchat q st).2.1.vega_spec = st.vega_spec ∧
     (Session.dispatchByIntent eng Session.IntentType.chitchat q st).2.1.current_image = st.current_image) ∧
    (∀ r m, eng.goal q st.vega_spec st.current_image st.chart_type st.modeContext = (r, m) →
      r.success = true →
      (Session.dispatchByIntent eng Session.IntentType.explicit_analysis q st).2.1.vega_spec =
        r.final_spec.getD st.vega_spec ∧
      (Session.dispatchByIntent eng Session.IntentType.explicit_analysis q st).2.1.current_image =
        r.final_image.getD st.current_image) ∧
    (∀ resp q', resp.success = false → Session.quickIntent q' = none →
      (Session.processQuery eng resp q' st).2.2 = Session.EngineTag.exploreEngine) := by
  refine ⟨⟨?_, ?_, ?_⟩, ⟨?_, ?_⟩, ?_, ?_⟩
  · simp [Session.dispatchByIntent, h1, h2]
  · simp [Session.dispatchByIntent, h1, h2]
  · simp [Session.dispatchByIntent, h1, h2]
  · simp [Session.dispatchByIntent]
  · simp [Session.dispatchByIntent]
  · intro r m hr hs
    simp [Session.dispatchByIntent, hr, hs]
  · intro resp q' hfail hquick
    simp [Session.processQuery, Session.recognizeIntent, hquick,
      Session.vlmIntentFallback, hfail, Session.dispatchByIntent]

/-- C10 witness: a concrete Unknown intent goes to the exploration engine
with spec and image preserved. -/
theorem intent_routing_to_explore_witness :
    (Session.dispatchByIntent demoEngines Session.IntentType.unknown "q" demoSession).2.2 =
      Session.EngineTag.exploreEngine ∧
    (Session.dispatchByIntent demoEngines Session.IntentType.unknown "q" demoSession).2.1.vega_spec = 7 := by
  have h := intent_routing_to_explore demoEngines Session.IntentType.unknown "q" demoSession
    (by decide) (by decide)
  exact ⟨h.1.1, h.1.2.1.trans rfl⟩

/-- The validation error strings are exactly the missing required parameter
names, each prefixed with the fixed message. -/
theorem validateParams_eq_map (specs : List (String × Executor.ParamSpec))
    (params : Executor.Dict) :
    Executor.validateParams specs params =
      (Executor.missingRequired specs params).map
        (fun n => "Missing required parameter: " ++ n) := by
  induction specs with
  | nil => rfl
  | cons hd tl ih =>
    unfold Executor.validateParams Executor.missingRequired
    rw [List.filterMap_cons, List.filterMap_cons]
    by_cases hc : hd.2.required = true ∧ (params.lookup hd.1).isNone = true
    · rw [if_pos hc, if_pos hc, List.map_cons]
      exact congrArg _ ih
    · rw [if_neg hc, if_neg hc]
      exact ih

/-- C4: the dispatcher never raises: for every registry whose tool bodies
return dicts carrying a `success` flag, every dispatch outcome — unknown
tool, validation failure, body exception, body success — is a result dict
with an explicit `success` key, and a raised body error is converted into
the failure dict carrying the error message. -/
theorem dispatch_never_raises (reg : Executor.Registry) (now : String)
    (history : List Executor.ExecRecord) (toolName : String)
    (params : Executor.Dict) (validate : Bool)
    (hreg : ∀ p ∈ reg, ∀ args r, p.2.fn args = Except.ok r →
      (r.lookup "success").isSome = true) :
    ((Executor.execute reg now history toolName params validate).result.lookup
        "success").isSome = true ∧
    (∀ ti e, reg.lookup toolName = some ti →
      ¬(validate = true ∧ Executor.validateParams ti.params params ≠ []) →
      ti.fn (Executor.fillDefaultParams ti.params params) = Except.error e →
      (Executor.execute reg now history toolName params validate).result =
        [("success", Executor.PVal.vbool false),
         ("error", Executor.PVal.vstr e.msg),
         ("traceback", Executor.PVal.vstr e.tb)]) := by
  constructor
  · unfold Executor.execute
    cases hlook : reg.lookup toolName with
    | none => rfl
    | some ti =>
      simp only
      by_cases hv : validate = true ∧ Executor.validateParams ti.params params ≠ []
      · rw [if_pos hv]
        rfl
      · rw [if_neg hv]
        cases hfn : ti.fn (Executor.fillDefaultParams ti.params params) with
        | ok r =>
          simp only
          exact hreg (toolName, ti) (lookup_mem _ _ _ hlook) _ r hfn
        | error e => rfl
  · intro ti e hlook hv hfn
    unfold Executor.execute
    rw [hlook]
    simp only
    rw [if_neg hv, hfn]

/-- C4 witness: dispatching the demo tool with its required parameter
present yields a result with an explicit `success` flag. -/
theorem dispatch_never_raises_witness :
    ((Executor.execute demoRegistry "t0" [] "sort_bars"
        [("vega_spec", Executor.PVal.vdict [])] true).result.lookup
      "success").isSome = true := by
  have h := dispatch_never_raises demoRegistry "t0" [] "sort_bars"
    [("vega_spec", Executor.PVal.vdict [])] true ?_
  · exact h.1
  · intro p hp args r hfn
    simp only [demoRegistry, List.mem_singleton] at hp
    subst hp
    simp only [demoToolInfo] at hfn
    cases hfn
    rfl

/-- C5: with validation enabled, a dispatch whose params omit one or more
required parameters returns a failure result whose `details` lists a message
for every missing required name (in descriptor order, not just the first),
and the tool body is never invoked. -/
theorem missing_required_validation (reg : Executor.Registry) (now : String)
    (history : List Executor.ExecRecord) (toolName : String)
    (params : Executor.Dict) (ti : Executor.ToolInfo)
    (hlook : reg.lookup toolName = some ti)
    (hmiss : Executor.missingRequired ti.params params ≠ []) :
    (Executor.execute reg now history toolName params true).result.lookup "success" =
      some (Executor.PVal.vbool false) ∧
    (Executor.execute reg now history toolName params true).result.lookup "details" =
      some (Executor.PVal.vlist ((Executor.missingRequired ti.params params).map
        (fun n => Executor.PVal.vstr ("Missing required parameter: " ++ n)))) ∧
    (Executor.execute reg now history toolName params true).bodyInvoked = false := by
  have hne : Executor.validateParams ti.params params ≠ [] := by
    rw [validateParams_eq_map]
    simpa using hmiss
  have hred : Executor.execute reg now history toolName params true =
      { result :=
          [("success", Executor.PVal.vbool false),
           ("error", Executor.PVal.vstr "Parameter validation failed"),
           ("details", Executor.PVal.vlist
             ((Executor.validateParams ti.params params).map Executor.PVal.vstr))],
        history := history, bodyInvoked := false } := by
    unfold Executor.execute
    rw [hlook]
    simp only
    rw [if_pos ⟨by trivial, hne⟩]
  rw [hred]
  refine ⟨rfl, ?_, rfl⟩
  simp only [List.lookup]
  rw [show (("details" : String) == "success") = false from rfl,
    show (("details" : String) == "error") = false from rfl,
    show (("details" : String) == "details") = true from rfl]
  rw [validateParams_eq_map, List.map_map]
  rfl

/-- C5 witness: dispatching the demo `sort_bars` with empty params fails
validation listing `vega_spec`, without invoking the body. -/
theorem missing_required_validation_witness :
    (Executor.execute demoRegistry "t0" [] "sort_bars" [] true).result.lookup "details" =
      some (Executor.PVal.vlist
        [Executor.PVal.vstr "Missing required parameter: vega_spec"]) ∧
    (Executor.execute demoRegistry "t0" [] "sort_bars" [] true).bodyInvoked = false := by
  have h := missing_required_validation demoRegistry "t0" [] "sort_bars" [] demoToolInfo
    rfl (by decide)
  exact ⟨h.2.1.trans (by rfl), h.2.2⟩

/-- Unfolding of `recordExecution` under the capacity bound: below capacity
the record is appended; at capacity the oldest record is evicted. -/
theorem recordExecution_spec (now toolName : String) (params result : Executor.Dict)
    (success : Bool) (history : List Executor.ExecRecord) :
    (history.length < 100 →
      Executor.recordExecution now toolName params result success history =
        history ++ [{ timestamp := now, tool_name := toolName,
                      params := Executor.dropSpec params,
                      result := Executor.dropSpec result, success := success }]) ∧
    (history.length = 100 →
      Executor.recordExecution now toolName params result success history =
        history.tail ++ [{ timestamp := now, tool_name := toolName,
                           params := Executor.dropSpec params,
                           result := Executor.dropSpec result, success := success }]) ∧
    (history.length ≤ 100 →
      (Executor.recordExecution now toolName params result success history).length ≤ 100) := by
  refine ⟨?_, ?_, ?_⟩
  · intro h
    unfold Executor.recordExecution
    rw [if_neg (by simp; omega)]
  · intro h
    unfold Executor.recordExecution
    rw [if_pos (by simp [h])]
    rw [List.length_append, h]
    simp only [List.length_singleton]
    rw [show 100 + 1 - 100 = 1 from rfl]
    rw [List.drop_append_of_le_length (by omega), List.drop_one]
  · intro h
    rcases Nat.lt_or_ge history.length 100 with hlt | hge
    · unfold Executor.recordExecution
      rw [if_neg (by simp; omega)]
      simp only [List.length_append, List.length_singleton]
      omega
    · have heq : history.length = 100 := Nat.le_antisymm h hge
      unfold Executor.recordExecution
      rw [if_pos (by simp [heq])]
      simp only [List.length_drop, List.length_append, List.length_singleton]
      omega

/-- C6 counterexample: dispatching an unknown tool appends no
ExecutionRecord at all — the claim that exactly one record is appended after
every call to `execute` fails on the unknown-tool path. -/
theorem execution_log_not_always_appended_cex :
    ¬ ((Executor.execute [] "t0" [] "nonexistent" [] true).history.length =
        ([] : List Executor.ExecRecord).length + 1) := by
  intro h
  simp [Executor.execute] at h

/-- C6 (amended): an ExecutionRecord is appended exactly when the dispatch
reaches the tool body (body success or body exception) — the unknown-tool
and validation-failure paths append nothing — the appended record excludes
the chart specification from both logged params and logged result, carries
the timestamp and tool name, and the log length never exceeds the capacity
of 100, the oldest record being evicted past it. -/
theorem execution_log_amended (reg : Executor.Registry) (now : String)
    (history : List Executor.ExecRecord) (toolName : String)
    (params : Executor.Dict) (validate : Bool)
    (hlen : history.length ≤ 100) :
    (Executor.execute reg now history toolName params validate).history.length ≤ 100 ∧
    (reg.lookup toolName = none →
      (Executor.execute reg now history toolName params validate).history = history) ∧
    (∀ ti, reg.lookup toolName = some ti → validate = true →
      Executor.validateParams ti.params params ≠ [] →
      (Executor.execute reg now history toolName params validate).history = history) ∧
    (∀ ti, reg.lookup toolName = some ti →
      ¬(validate = true ∧ Executor.validateParams ti.params params ≠ []) →
      ∃ rcd : Executor.ExecRecord,
        rcd.timestamp = now ∧ rcd.tool_name = toolName ∧
        rcd.params.lookup "vega_spec" = none ∧
        rcd.result.lookup "vega_spec" = none ∧
        (history.length < 100 →
          (Executor.execute reg now history toolName params validate).history =
            history ++ [rcd]) ∧
        (history.length = 100 →
          (Executor.execute reg now history toolName params validate).history =
            history.tail ++ [rcd])) := by
  refine ⟨?_, ?_, ?_, ?_⟩
  · unfold Executor.execute
    cases hlook : reg.lookup toolName with
    | none => exact hlen
    | some ti =>
      simp only
      by_cases hv : validate = true ∧ Executor.validateParams ti.params params ≠ []
      · rw [if_pos hv]; exact hlen
      · rw [if_neg hv]
        cases hfn : ti.fn (Executor.fillDefaultParams ti.params params) with
        | ok r =>
          simp only
          exact (recordExecution_spec now toolName _ r true history).2.2 hlen
        | error e =>
          simp only
          exact (recordExecution_spec now toolName _ _ false history).2.2 hlen
  · intro hlook
    unfold Executor.execute
    rw [hlook]
  · intro ti hlook hval hne
    unfold Executor.execute
    rw [hlook]
    simp only
    rw [if_pos ⟨hval, hne⟩]
  · intro ti hlook hv
    unfold Executor.execute
    rw [hlook]
    simp only
    rw [if_neg hv]
    cases hfn : ti.fn (Executor.fillDefaultParams ti.params params) with
    | ok r =>
      refine ⟨{ timestamp := now, tool_name := toolName,
                params := Executor.dropSpec (Executor.fillDefaultParams ti.params params),
                result := Executor.dropSpec r, success := true }, rfl, rfl,
        lookup_filter_ne_none _ _, lookup_filter_ne_none _ _, ?_, ?_⟩
      · intro hlt
        exact (recordExecution_spec now toolName _ r true history).1 hlt
      · intro heq
        exact (recordExecution_spec now toolName _ r true history).2.1 heq
    | error e =>
      refine ⟨{ timestamp := now, tool_name := toolName,
                params := Executor.dropSpec (Executor.fillDefaultParams ti.params params),
                result := Executor.dropSpec
                  [("success", Executor.PVal.vbool false),
                   ("error", Executor.PVal.vstr e.msg),
                   ("traceback", Executor.PVal.vstr e.tb)], success := false },
        rfl, rfl, lookup_filter_ne_none _ _, lookup_filter_ne_none _ _, ?_, ?_⟩
      · intro hlt
        exact (recordExecution_spec now toolName _ _ false history).1 hlt
      · intro heq
        exact (recordExecution_spec now toolName _ _ false history).2.1 heq

/-- C6 witness: a successful dispatch of the demo tool on an empty log
appends exactly one record whose logged params exclude `vega_spec`. -/
theorem execution_log_amended_witness :
    ∃ rcd : Executor.ExecRecord,
      rcd.timestamp = "t0" ∧ rcd.tool_name = "sort_bars" ∧
      rcd.params.lookup "vega_spec" = none ∧
      rcd.result.lookup "vega_spec" = none ∧
      (Executor.execute demoRegistry "t0" [] "sort_bars"
          [("vega_spec", Executor.PVal.vdict [])] true).history =
        [] ++ [rcd] := by
  have h := (execution_log_amended demoRegistry "t0" [] "sort_bars"
    [("vega_spec", Executor.PVal.vdict [])] true (by decide)).2.2.2
    demoToolInfo rfl (by intro hx; exact hx.2 (by rfl))
  obtain ⟨rcd, h1, h2, h3, h4, h5, _⟩ := h
  exact ⟨rcd, h1, h2, h3, h4, h5 (by decide)⟩

/-- C7 counterexample: on the text `{"a":1}}` the first balanced brace
object is `{"a":1}`, whose JSON value is the non-empty object, but the
extraction — which slices from the first brace to the LAST closing brace
and fails to parse `{"a":1}}` — returns the empty object instead. -/
theorem extract_json_first_balanced_cex :
    JsonExtract.extract_json_from_text "\x7b\"a\":1\x7d\x7d" = JsonExtract.Json.jobj [] ∧
    JsonExtract.firstBalancedObjectValue "\x7b\"a\":1\x7d\x7d" =
      some (JsonExtract.Json.jobj [("a", JsonExtract.Json.jnum 1)]) ∧
    JsonExtract.Json.jobj [] ≠ JsonExtract.Json.jobj [("a", JsonExtract.Json.jnum 1)] := by
  refine ⟨rfl, by with_unfolding_all rfl, ?_⟩
  intro h
  simp at h

/-- C7 (amended): for every input text, the extraction returns the JSON
value of the segment spanning the first `\x7b` through the LAST `\x7d` when
that segment parses as a non-empty object (not the first balanced object),
and the empty object in every other case — in particular whenever only an
array or nothing is found. -/
theorem extract_json_amended (text : String) :
    JsonExtract.extract_json_from_text text = JsonExtract.extractAmendedSpec text := by
  have harr : ∀ j : JsonExtract.Json,
      (match JsonExtract.arrayFallback text.toList with
        | some _ => j
        | none => j) = j := by
    intro j
    cases JsonExtract.arrayFallback text.toList <;> rfl
  simp only [JsonExtract.extract_json_from_text, JsonExtract.extractAmendedSpec,
    JsonExtract.dictCandidate]
  cases hf : JsonExtract.strFind text.toList '{' with
  | none =>
    simp only [hf]
    exact harr _
  | some startIdx =>
    cases hr : JsonExtract.strRfind text.toList '}' with
    | none =>
      simp only [hf, hr]
      exact harr _
    | some endIdx =>
      simp only [hf, hr]
      by_cases hlt : startIdx < endIdx
      · simp only [if_pos hlt]
        cases hp : JsonExtract.safe_json_loads
            (JsonExtract.slice text.toList startIdx (endIdx + 1)) with
        | none =>
          simp only
          exact harr _
        | some r =>
          cases r with
          | jobj fields =>
            cases fields with
            | nil =>
              simp only [JsonExtract.truthy, JsonExtract.isDict, List.isEmpty_nil,
                Bool.not_true, Bool.false_eq_true, false_and, if_false, if_true]
              exact harr _
            | cons fhd ftl =>
              simp only [JsonExtract.truthy, JsonExtract.isDict, List.isEmpty_cons,
                Bool.not_false, and_self, if_true, Bool.false_eq_true, if_false]
          | jnull =>
            simp only [JsonExtract.truthy, JsonExtract.isDict, Bool.false_eq_true,
              and_false, if_false]
            exact harr _
          | jbool b =>
            simp only [JsonExtract.truthy, JsonExtract.isDict, Bool.false_eq_true,
              and_false, if_false]
            exact harr _
          | jnum n =>
            simp only [JsonExtract.truthy, JsonExtract.isDict, Bool.false_eq_true,
              and_false, if_false]
            exact harr _
          | jstr sv =>
            simp only [JsonExtract.truthy, JsonExtract.isDict, Bool.false_eq_true,
              and_false, if_false]
            exact harr _
          | jarr xs =>
            simp only [JsonExtract.truthy, JsonExtract.isDict, Bool.false_eq_true,
              and_false, if_false]
            exact harr _
      · simp only [if_neg hlt]
        exact harr _

/-- `zoom` never writes a row: its resulting heap is exactly the input heap
extended by the deep copy. -/
theorem zoom_fst (store : ToolBodies.Store) (spec : ToolBodies.SpecH)
    (area : List Int) :
    (ToolBodies.zoom store spec area).1 =
      store ++ spec.dataValues.map (ToolBodies.fetch store) := by
  unfold ToolBodies.zoom ToolBodies.deepcopySpec
  dsimp only
  repeat' split
  all_goals rfl

/-- `calculate_correlation` is a pure read: the heap is returned unchanged. -/
theorem calculate_correlation_fst (pearson spearman : List Int → List Int → ℚ × ℚ)
    (store : ToolBodies.Store) (spec : ToolBodies.SpecH) (method : String) :
    (ToolBodies.calculate_correlation pearson spearman store spec method).1 = store := by
  unfold ToolBodies.calculate_correlation
  dsimp only
  repeat' split
  all_goals rfl

/-- Writing rows only at addresses different from `a` leaves the row at `a`
unchanged. -/
theorem writeLabels_preserve (clusterField : String) (assign : List (Nat × Nat))
    (store : ToolBodies.Store) (a : Nat) (h : ∀ p ∈ assign, a ≠ p.1) :
    (ToolBodies.writeLabels clusterField store assign)[a]? = store[a]? := by
  induction assign generalizing store with
  | nil => rfl
  | cons hd tl ih =>
    unfold ToolBodies.writeLabels
    simp only [List.foldl_cons]
    have step : (ToolBodies.storeSet store hd.1 clusterField
        (ToolBodies.RVal.rnum (hd.2 : Int)))[a]? = store[a]? := by
      unfold ToolBodies.storeSet
      exact List.getElem?_set_ne (Ne.symm (h hd (List.mem_cons_self _ _)))
    have htl := ih (ToolBodies.storeSet store hd.1 clusterField
        (ToolBodies.RVal.rnum (hd.2 : Int)))
      (fun p hp => h p (List.mem_cons_of_mem _ hp))
    unfold ToolBodies.writeLabels at htl
    exact htl.trans step

/-- A valid point's address is one of the traversed addresses. -/
theorem validPoints_addr_mem (store : ToolBodies.Store) (xf yf : String)
    (addrs : List Nat) (q : Nat × ToolBodies.RVal × ToolBodies.RVal)
    (hq : q ∈ ToolBodies.validPoints store xf yf addrs) : q.1 ∈ addrs := by
  unfold ToolBodies.validPoints at hq
  rw [List.mem_filterMap] at hq
  obtain ⟨b, hb, hfb⟩ := hq
  split at hfb
  · cases hfb; exact hb
  · cases hfb

/-- Cluster labels are written only at the fresh addresses produced by the
deep copy, so every address below the allocation frontier reads unchanged. -/
theorem identify_write_preserve (cf : String) (storeExt : ToolBodies.Store)
    (xf yf : String) (start len : Nat) (labels : List Nat) (a : Nat)
    (ha : a < start) :
    (ToolBodies.writeLabels cf storeExt
      (((ToolBodies.validPoints storeExt xf yf (List.range' start len)).map
          (fun p => p.1)).zip labels))[a]? = storeExt[a]? := by
  apply writeLabels_preserve
  intro p hp
  have h1 := (List.of_mem_zip hp).1
  rw [List.mem_map] at h1
  obtain ⟨q, hq, hq1⟩ := h1
  have h2 := validPoints_addr_mem _ _ _ _ q hq
  have h3 : start ≤ q.1 := (List.mem_range'_1.mp h2).1
  omega

/-- C8: the embedded tool bodies `zoom`, `identify_clusters` and
`calculate_correlation` leave every pre-existing row object of the heap —
in particular every row the caller's input specification references —
untouched: all mutation happens on the fresh deep-copied rows.  The caller's
spec is therefore observationally unchanged across the call, whatever the
outcome. -/
theorem tool_bodies_preserve_input (store : ToolBodies.Store)
    (spec : ToolBodies.SpecH) (area : List Int) (n_clusters : Nat)
    (method : String)
    (kmeans : List (Int × Int) → Nat → List Nat × List (Int × Int))
    (pearson spearman : List Int → List Int → ℚ × ℚ)
    (a : Nat) (ha : a < store.length) :
    (ToolBodies.zoom store spec area).1[a]? = store[a]? ∧
    (ToolBodies.identify_clusters kmeans store spec n_clusters).1[a]? = store[a]? ∧
    (ToolBodies.calculate_correlation pearson spearman store spec method).1 = store := by
  have hbase : (store ++ spec.dataValues.map (ToolBodies.fetch store))[a]? = store[a]? := by
    rw [List.getElem?_append]
    simp [ha]
  refine ⟨?_, ?_, calculate_correlation_fst pearson spearman store spec method⟩
  · rw [zoom_fst]
    exact hbase
  · unfold ToolBodies.identify_clusters ToolBodies.deepcopySpec
    dsimp only
    repeat' split
    all_goals
      first
        | exact hbase
        | exact (identify_write_preserve _ _ _ _ store.length _ _ a ha).trans hbase

/-- C8 witness: on the one-row demo store, each of the three tool bodies
leaves the caller's row readable unchanged at its address. -/
theorem tool_bodies_preserve_input_witness :
    (ToolBodies.zoom demoStore demoSpecH [0, 0, 2, 3]).1[0]? = demoStore[0]? ∧
    (ToolBodies.identify_clusters demoKmeans demoStore demoSpecH 1).1[0]? = demoStore[0]? ∧
    (ToolBodies.calculate_correlation demoCorr demoCorr demoStore demoSpecH "pearson").1 =
      demoStore :=
  tool_bodies_preserve_input demoStore demoSpecH [0, 0, 2, 3] 1 "pearson"
    demoKmeans demoCorr demoCorr 0 (by decide)

/-- Every executed round appends exactly one IterationRecord (all branches
of the loop body append precisely one, whether the round fails, achieves the
goal, runs a tool, or does nothing). -/
theorem goalStep_iterations_length {σ : Type} (env : GoalMode.Env σ)
    (round : Nat) (st : GoalMode.GoalState σ) :
    (GoalMode.goalStep env round st).1.iterations.length =
      st.iterations.length + 1 := by
  unfold GoalMode.goalStep
  dsimp only
  repeat' split
  all_goals simp

/-- The loop continues past a round exactly when the Endpoint call
succeeded and the decision did not report achievement. -/
theorem goalStep_continue {σ : Type} (env : GoalMode.Env σ) (round : Nat)
    (st : GoalMode.GoalState σ) :
    (GoalMode.goalStep env round st).2 =
      ((env.vlm round).success && !(env.vlm round).parsed.goal_achieved) := by
  unfold GoalMode.goalStep
  dsimp only
  repeat' split
  all_goals simp_all

/-- On a run of successful non-achieving rounds the loop executes every
remaining round, appending one record per round. -/
theorem goalLoop_length_all {σ : Type} (env : GoalMode.Env σ) :
    ∀ (n round : Nat) (st : GoalMode.GoalState σ),
      (∀ i, round ≤ i → i < round + n → (env.vlm i).success = true ∧
        (env.vlm i).parsed.goal_achieved = false) →
      (GoalMode.goalLoop env n round st).iterations.length =
        st.iterations.length + n := by
  intro n
  induction n with
  | zero => intro round st _; rfl
  | succ m ih =>
    intro round st h
    have h0 := h round (le_refl _) (by omega)
    have hc : (GoalMode.goalStep env round st).2 = true := by
      rw [goalStep_continue, h0.1, h0.2]
      rfl
    unfold GoalMode.goalLoop
    dsimp only
    rw [hc]
    rw [if_pos rfl]
    rw [ih (round + 1) (GoalMode.goalStep env round st).1
      (fun i h1 h2 => h i (by omega) (by omega))]
    rw [goalStep_iterations_length]
    omega

/-- When the first achieving round lies `j` rounds ahead (with Endpoint
success throughout), the loop runs those `j` rounds plus the achieving one
and stops, appending `j + 1` records. -/
theorem goalLoop_length_achieve {σ : Type} (env : GoalMode.Env σ) :
    ∀ (j n round : Nat) (st : GoalMode.GoalState σ),
      j < n →
      (∀ i, round ≤ i → i < round + j → (env.vlm i).success = true ∧
        (env.vlm i).parsed.goal_achieved = false) →
      (env.vlm (round + j)).success = true →
      (env.vlm (round + j)).parsed.goal_achieved = true →
      (GoalMode.goalLoop env n round st).iterations.length =
        st.iterations.length + j + 1 := by
  intro j
  induction j with
  | zero =>
    intro n round st hj h hsucc hach
    obtain ⟨m, rfl⟩ : ∃ m, n = m + 1 := ⟨n - 1, by omega⟩
    rw [Nat.add_zero] at hsucc hach
    have hc : (GoalMode.goalStep env round st).2 = false := by
      rw [goalStep_continue, hsucc, hach]
      rfl
    unfold GoalMode.goalLoop
    dsimp only
    rw [hc]
    rw [if_neg (by simp)]
    rw [goalStep_iterations_length]
  | succ m ih =>
    intro n round st hj h hsucc hach
    obtain ⟨n', rfl⟩ : ∃ n', n = n' + 1 := ⟨n - 1, by omega⟩
    have h0 := h round (le_refl _) (by omega)
    have hc : (GoalMode.goalStep env round st).2 = true := by
      rw [goalStep_continue, h0.1, h0.2]
      rfl
    unfold GoalMode.goalLoop
    dsimp only
    rw [hc]
    rw [if_pos rfl]
    have hshift : round + 1 + m = round + (m + 1) := by omega
    rw [ih n' (round + 1) (GoalMode.goalStep env round st).1 (by omega)
      (fun i h1 h2 => h i (by omega) (by omega))
      (by rw [hshift]; exact hsucc) (by rw [hshift]; exact hach)]
    rw [goalStep_iterations_length]
    omega

/-- C1: starting from an empty transcript with an Endpoint that returns a
successful structured response on every round: if round `k` (1-based,
`k ≤ maxIter`) is the first whose decision sets `goal_achieved`, the loop
produces exactly `k` IterationRecords and stops; if no round ever reports
achievement, it produces exactly `maxIter` records and terminates with the
engine-level result still reporting success. -/
theorem goal_loop_iteration_count {σ : Type} (env : GoalMode.Env σ)
    (q : String) (spec0 : σ) (img0 : String) (maxIter k : Nat)
    (hsucc : ∀ i, i < maxIter → (env.vlm i).success = true) :
    (1 ≤ k → k ≤ maxIter →
      (env.vlm (k - 1)).parsed.goal_achieved = true →
      (∀ i, i < k - 1 → (env.vlm i).parsed.goal_achieved = false) →
      (GoalMode.execute env q spec0 img0 maxIter [] []).iterations.length = k) ∧
    ((∀ i, i < maxIter → (env.vlm i).parsed.goal_achieved = false) →
      (GoalMode.execute env q spec0 img0 maxIter [] []).iterations.length = maxIter ∧
      (GoalMode.execute env q spec0 img0 maxIter [] []).success = true) := by
  constructor
  · intro hk1 hkm hach hnot
    show (GoalMode.goalLoop env maxIter 0
      { messages := [GoalMode.initialUserMsg q img0], iterations := [],
        currentSpec := spec0, currentImage := img0 }).iterations.length = k
    rw [goalLoop_length_achieve env (k - 1) maxIter 0 _ (by omega)
      (fun i h1 h2 => ⟨hsucc i (by omega), hnot i (by omega)⟩)
      (by rw [Nat.zero_add]; exact hsucc (k - 1) (by omega))
      (by rw [Nat.zero_add]; exact hach)]
    simp only [List.length_nil]
    omega
  · intro hnot
    refine ⟨?_, rfl⟩
    show (GoalMode.goalLoop env maxIter 0
      { messages := [GoalMode.initialUserMsg q img0], iterations := [],
        currentSpec := spec0, currentImage := img0 }).iterations.length = maxIter
    rw [goalLoop_length_all env maxIter 0 _
      (fun i h1 h2 => ⟨hsucc i (by omega), hnot i (by omega)⟩)]
    first
      | rfl
      | · simp only [List.length_nil]
          omega

/-- C1 witness: with an Endpoint achieving on the second round under a cap
of 3, exactly 2 records are produced. -/
theorem goal_loop_iteration_count_witness :
    (GoalMode.execute envAchieveAt2 "q" 0 "img" 3 [] []).iterations.length = 2 :=
  (goal_loop_iteration_count envAchieveAt2 "q" 0 "img" 3 2
      (fun i _ => rfl)).1
    (by omega) (by omega) rfl
    (fun i hi => by
      have : i = 0 := by omega
      subst this
      rfl)

/-- C2 counterexample: with a tool that returns spec 1 from spec 0 and a
renderer that always fails, one round leaves the returned `final_image` at
its pre-mutation value but the returned `final_spec` is the tool's NEW spec
(1), not the pre-mutation spec (0): the engine advances `current_spec`
before rendering and never rolls it back. -/
theorem render_failure_spec_advances_cex :
    (GoalMode.execute envRenderFail "q" 0 "img0" 1 [] []).final_spec = 1 ∧
    (GoalMode.execute envRenderFail "q" 0 "img0" 1 [] []).final_image = "img0" ∧
    (1 : Nat) ≠ 0 := by
  refine ⟨rfl, rfl, by omega⟩

/-- C2 (amended): when a dispatched tool succeeds with a new spec and the
subsequent render fails, the engine appends the render-failure user turn,
marks the iteration unsuccessful, and holds the current image at its
pre-mutation value — but the current spec is advanced to the spec the tool
returned (no rollback), and the loop continues. -/
theorem render_failure_state_amended {σ : Type} (env : GoalMode.Env σ)
    (round : Nat) (st : GoalMode.GoalState σ) (tc : GoalMode.ToolCall)
    (newSpec : σ)
    (h1 : (env.vlm round).success = true)
    (h2 : (env.vlm round).parsed.goal_achieved = false)
    (h3 : (env.vlm round).parsed.tool_call = some tc)
    (h4 : (env.toolExec round st.currentSpec).success = true)
    (h5 : (env.toolExec round st.currentSpec).vega_spec = some newSpec)
    (h6 : (env.render round newSpec).success = false) :
    GoalMode.goalStep env round st =
      ({ messages := st.messages ++
           [GoalMode.assistantMsg (env.vlm round).content,
            GoalMode.renderFailUserMsg tc.tool
              ((env.render round newSpec).error.getD "Render failed")
              st.currentImage],
         iterations := st.iterations ++
           [{ iteration := round + 1, success := false, error := none,
              decision := some (env.vlm round).parsed,
              vlm_raw_output := (env.vlm round).content,
              images := [st.currentImage],
              tool_execution := some
                { tool_name := tc.tool, tool_params := tc.params,
                  tool_result := env.toolExec round st.currentSpec } }],
         currentSpec := newSpec, currentImage := st.currentImage }, true) := by
  unfold GoalMode.goalStep
  dsimp only
  rw [if_neg (by rw [h1]; simp)]
  rw [h2]
  rw [if_neg (by simp)]
  rw [h3]
  dsimp only
  rw [if_pos h4, h5]
  dsimp only
  rw [if_neg (by rw [h6]; simp)]
  rw [List.append_assoc]
  rfl

/-- C2 witness: the amended statement at the concrete render-failing
environment: image held, spec advanced, iteration marked unsuccessful. -/
theorem render_failure_state_amended_witness :
    (GoalMode.goalStep envRenderFail 0 stDemo).1.currentSpec = 1 ∧
    (GoalMode.goalStep envRenderFail 0 stDemo).1.currentImage = "img0" ∧
    (GoalMode.goalStep envRenderFail 0 stDemo).1.iterations.map
      (fun r => r.success) = [false] := by
  have h := render_failure_state_amended envRenderFail 0 stDemo
    { tool := "zoom", params := [] } 1 rfl rfl rfl rfl rfl rfl
  rw [h]
  exact ⟨rfl, rfl, rfl⟩

/-- C3 counterexample: with an Endpoint that keeps replying without a tool
call and without achievement, two rounds put two assistant turns back to
back — the transcript does not strictly alternate. -/
theorem transcript_alternation_cex :
    ¬ GoalMode.Alternates (GoalMode.execute envNoTool "q" 0 "img" 2 [] []).messages := by
  intro h
  rw [show (GoalMode.execute envNoTool "q" 0 "img" 2 [] []).messages =
      [GoalMode.initialUserMsg "q" "img", GoalMode.assistantMsg "thinking",
       GoalMode.assistantMsg "thinking"] from rfl] at h
  unfold GoalMode.Alternates at h
  rw [List.chain'_cons, List.chain'_cons] at h
  exact h.2.1 rfl

/-- The head of a list survives appending when the list is non-empty. -/
theorem head?_append_left {α : Type} (ms l : List α) (h : ms ≠ []) :
    (ms ++ l).head? = ms.head? := by
  cases ms with
  | nil => exact absurd rfl h
  | cons x t => rfl

/-- The tail of an append distributes when the prefix is non-empty. -/
theorem tail_append_left {α : Type} (ms l : List α) (h : ms ≠ []) :
    (ms ++ l).tail = ms.tail ++ l := by
  cases ms with
  | nil => exact absurd rfl h
  | cons x t => rfl

/-- Appending one turn of the opposite role preserves alternation. -/
theorem alternates_append_one (ms : List GoalMode.Message) (m : GoalMode.Message)
    (h : GoalMode.Alternates ms)
    (hlast : ∀ x ∈ ms.getLast?, x.role ≠ m.role) :
    GoalMode.Alternates (ms ++ [m]) := by
  refine List.chain'_append.mpr ⟨h, List.chain'_singleton m, ?_⟩
  intro x hx y hy
  simp only [List.head?_cons, Option.mem_def, Option.some.injEq] at hy
  subst hy
  exact hlast x hx

/-- Appending an assistant/user pair after a user-terminated alternating
transcript preserves alternation. -/
theorem alternates_append_two (ms : List GoalMode.Message)
    (a u : GoalMode.Message) (h : GoalMode.Alternates ms)
    (hlast : ∀ x ∈ ms.getLast?, x.role ≠ a.role) (hau : a.role ≠ u.role) :
    GoalMode.Alternates (ms ++ [a, u]) := by
  refine List.chain'_append.mpr ⟨h, ?_, ?_⟩
  · exact List.chain'_pair.mpr hau
  · intro x hx y hy
    simp only [List.head?_cons, Option.mem_def, Option.some.injEq] at hy
    subst hy
    exact hlast x hx

/-- One loop round, seen on the transcript: under the side condition that a
successful round either achieves the goal or carries a tool call, the round
appends nothing (Endpoint failure, loop breaks), exactly the verbatim
assistant turn (achievement, loop breaks), or the verbatim assistant turn
followed by one engine-synthesized user turn (loop continues). -/
theorem goalStep_transcript {σ : Type} (env : GoalMode.Env σ) (round : Nat)
    (st : GoalMode.GoalState σ)
    (hdec : (env.vlm round).success = true →
      (env.vlm round).parsed.goal_achieved = true ∨
      ((env.vlm round).parsed.tool_call).isSome = true) :
    ((GoalMode.goalStep env round st).1.messages = st.messages ∧
      (GoalMode.goalStep env round st).2 = false) ∨
    ((GoalMode.goalStep env round st).1.messages =
        st.messages ++ [GoalMode.assistantMsg (env.vlm round).content] ∧
      (GoalMode.goalStep env round st).2 = false) ∨
    (∃ u, (GoalMode.goalStep env round st).1.messages =
        st.messages ++ [GoalMode.assistantMsg (env.vlm round).content, u] ∧
      u.role = GoalMode.Role.user ∧ GoalMode.EngineSynthesized u ∧
      (GoalMode.goalStep env round st).2 = true) := by
  by_cases hs : (env.vlm round).success = false
  · left
    constructor
    · unfold GoalMode.goalStep
      dsimp only
      rw [if_pos hs]
    · unfold GoalMode.goalStep
      dsimp only
      rw [if_pos hs]
  · have hs' : (env.vlm round).success = true := by
      cases h : (env.vlm round).success
      · exact absurd h hs
      · rfl
    by_cases hach : (env.vlm round).parsed.goal_achieved = true
    · right; left
      constructor
      · unfold GoalMode.goalStep
        dsimp only
        rw [if_neg hs, if_pos hach]
      · unfold GoalMode.goalStep
        dsimp only
        rw [if_neg hs, if_pos hach]
    · have htc : ((env.vlm round).parsed.tool_call).isSome = true := by
        rcases hdec hs' with h | h
        · exact absurd h hach
        · exact h
      obtain ⟨tc, htc'⟩ := Option.isSome_iff_exists.mp htc
      right; right
      have hstep : ∀ u' : GoalMode.Message,
          (GoalMode.goalStep env round st).1.messages =
            (st.messages ++ [GoalMode.assistantMsg (env.vlm round).content]) ++ [u'] →
          (GoalMode.goalStep env round st).2 = true →
          u'.role = GoalMode.Role.user → GoalMode.EngineSynthesized u' →
          ∃ u, (GoalMode.goalStep env round st).1.messages =
              st.messages ++ [GoalMode.assistantMsg (env.vlm round).content, u] ∧
            u.role = GoalMode.Role.user ∧ GoalMode.EngineSynthesized u ∧
            (GoalMode.goalStep env round st).2 = true := by
        intro u' hmsg hcont hrole hsyn
        refine ⟨u', ?_, hrole, hsyn, hcont⟩
        rw [hmsg, List.append_assoc]
        rfl
      by_cases h4 : (env.toolExec round st.currentSpec).success = true
      · cases h5 : (env.toolExec round st.currentSpec).vega_spec with
        | some newSpec =>
          by_cases h6 : (env.render round newSpec).success = true
          · apply hstep
            · unfold GoalMode.goalStep
              dsimp only
              rw [if_neg hs, if_neg hach, htc']
              dsimp only
              rw [if_pos h4, h5]
              dsimp only
              rw [if_pos h6]
            · unfold GoalMode.goalStep
              dsimp only
              rw [if_neg hs, if_neg hach, htc']
              dsimp only
              rw [if_pos h4, h5]
              dsimp only
              rw [if_pos h6]
            · rfl
            · exact ⟨tc.tool, _, _, Or.inl rfl⟩
          · apply hstep
            · unfold GoalMode.goalStep
              dsimp only
              rw [if_neg hs, if_neg hach, htc']
              dsimp only
              rw [if_pos h4, h5]
              dsimp only
              rw [if_neg h6]
            · unfold GoalMode.goalStep
              dsimp only
              rw [if_neg hs, if_neg hach, htc']
              dsimp only
              rw [if_pos h4, h5]
              dsimp only
              rw [if_neg h6]
            · rfl
            · exact ⟨tc.tool, _, _, Or.inr (Or.inl rfl)⟩
        | none =>
          apply hstep
          · unfold GoalMode.goalStep
            dsimp only
            rw [if_neg hs, if_neg hach, htc']
            dsimp only
            rw [if_pos h4, h5]
          · unfold GoalMode.goalStep
            dsimp only
            rw [if_neg hs, if_neg hach, htc']
            dsimp only
            rw [if_pos h4, h5]
          · rfl
          · exact ⟨tc.tool, _, _, Or.inr (Or.inr (Or.inl rfl))⟩
      · apply hstep
        · unfold GoalMode.goalStep
          dsimp only
          rw [if_neg hs, if_neg hach, htc']
          dsimp only
          rw [if_neg h4]
        · unfold GoalMode.goalStep
          dsimp only
          rw [if_neg hs, if_neg hach, htc']
          dsimp only
          rw [if_neg h4]
        · rfl
        · exact ⟨tc.tool, _, _, Or.inr (Or.inr (Or.inr rfl))⟩

/-- The transcript invariant carried through the loop: starting from an
alternating, user-terminated transcript, the loop keeps the transcript
alternating, preserves its head, keeps every assistant turn a verbatim
Endpoint reply, and keeps every user turn after the head engine-synthesized
— provided every successful round either achieves the goal or carries a
tool call. -/
theorem goalLoop_transcript {σ : Type} (env : GoalMode.Env σ) :
    ∀ (n round : Nat) (st : GoalMode.GoalState σ),
      (∀ i, round ≤ i → i < round + n → (env.vlm i).success = true →
        (env.vlm i).parsed.goal_achieved = true ∨
        ((env.vlm i).parsed.tool_call).isSome = true) →
      GoalMode.Alternates st.messages →
      (∃ lm, st.messages.getLast? = some lm ∧ lm.role = GoalMode.Role.user) →
      (∀ m ∈ st.messages, m.role = GoalMode.Role.assistant →
        ∃ i, m.content = [GoalMode.ContentPart.text ((env.vlm i).content)]) →
      (∀ m ∈ st.messages.tail, m.role = GoalMode.Role.user →
        GoalMode.EngineSynthesized m) →
      GoalMode.Alternates (GoalMode.goalLoop env n round st).messages ∧
      (GoalMode.goalLoop env n round st).messages.head? = st.messages.head? ∧
      (∀ m ∈ (GoalMode.goalLoop env n round st).messages,
        m.role = GoalMode.Role.assistant →
        ∃ i, m.content = [GoalMode.ContentPart.text ((env.vlm i).content)]) ∧
      (∀ m ∈ (GoalMode.goalLoop env n round st).messages.tail,
        m.role = GoalMode.Role.user → GoalMode.EngineSynthesized m) := by
  intro n
  induction n with
  | zero =>
    intro round st _ halt hlast hasst huser
    exact ⟨halt, rfl, hasst, huser⟩
  | succ nm ih =>
    intro round st hdec halt hlast hasst huser
    obtain ⟨lm, hlm, hlmrole⟩ := hlast
    have hne : st.messages ≠ [] := by
      intro hnil
      rw [hnil] at hlm
      cases hlm
    have hstep := goalStep_transcript env round st (hdec round (le_refl _) (by omega))
    unfold GoalMode.goalLoop
    dsimp only
    rcases hstep with ⟨hm, hc⟩ | ⟨hm, hc⟩ | ⟨u, hm, hur, husyn, hc⟩
    · rw [hc, if_neg (by simp), hm]
      exact ⟨halt, rfl, hasst, huser⟩
    · rw [hc, if_neg (by simp), hm]
      refine ⟨?_, ?_, ?_, ?_⟩
      · refine alternates_append_one _ _ halt ?_
        intro x hx
        rw [hlm] at hx
        simp only [Option.mem_def, Option.some.injEq] at hx
        subst hx
        rw [hlmrole]
        simp [GoalMode.assistantMsg]
      · exact head?_append_left _ _ hne
      · intro m hm' hrole
        rcases List.mem_append.mp hm' with h | h
        · exact hasst m h hrole
        · simp only [List.mem_singleton] at h
          subst h
          exact ⟨round, rfl⟩
      · rw [tail_append_left _ _ hne]
        intro m hm' hrole
        rcases List.mem_append.mp hm' with h | h
        · exact huser m h hrole
        · simp only [List.mem_singleton] at h
          subst h
          simp [GoalMode.assistantMsg, GoalMode.Role.user] at hrole
    · rw [hc, if_pos rfl]
      have hne2 : (GoalMode.goalStep env round st).1.messages ≠ [] := by
        rw [hm]
        simp
      have hlast2 : ∃ lm2, ((GoalMode.goalStep env round st).1.messages).getLast? =
          some lm2 ∧ lm2.role = GoalMode.Role.user := by
        refine ⟨u, ?_, hur⟩
        rw [hm]
        rw [show st.messages ++ [GoalMode.assistantMsg (env.vlm round).content, u] =
          (st.messages ++ [GoalMode.assistantMsg (env.vlm round).content]) ++ [u] by
            rw [List.append_assoc]; rfl]
        exact List.getLast?_concat _
      have halt2 : GoalMode.Alternates ((GoalMode.goalStep env round st).1.messages) := by
        rw [hm]
        refine alternates_append_two _ _ _ halt ?_ ?_
        · intro x hx
          rw [hlm] at hx
          simp only [Option.mem_def, Option.some.injEq] at hx
          subst hx
          rw [hlmrole]
          simp [GoalMode.assistantMsg]
        · rw [hur]
          simp [GoalMode.assistantMsg]
      have hasst2 : ∀ m ∈ (GoalMode.goalStep env round st).1.messages,
          m.role = GoalMode.Role.assistant →
          ∃ i, m.content = [GoalMode.ContentPart.text ((env.vlm i).content)] := by
        rw [hm]
        intro m hm' hrole
        rcases List.mem_append.mp hm' with h | h
        · exact hasst m h hrole
        · rcases List.mem_cons.mp h with h | h
          · exact ⟨round, by rw [h]; rfl⟩
          · simp only [List.mem_singleton] at h
            subst h
            rw [hur] at hrole
            cases hrole
      have huser2 : ∀ m ∈ ((GoalMode.goalStep env round st).1.messages).tail,
          m.role = GoalMode.Role.user → GoalMode.EngineSynthesized m := by
        rw [hm, tail_append_left _ _ hne]
        intro m hm' hrole
        rcases List.mem_append.mp hm' with h | h
        · exact huser m h hrole
        · rcases List.mem_cons.mp h with h | h
          · rw [h] at hrole
            simp [GoalMode.assistantMsg] at hrole
          · simp only [List.mem_singleton] at h
            subst h
            exact husyn
      have hrec := ih (round + 1) (GoalMode.goalStep env round st).1
        (fun i h1 h2 => hdec i (by omega) (by omega)) halt2 hlast2 hasst2 huser2
      refine ⟨hrec.1, ?_, hrec.2.2.1, hrec.2.2.2⟩
      rw [hrec.2.1, hm]
      exact head?_append_left _ _ hne

/-- C3 (amended): for every execution started with an empty transcript in
which each successful round's decision either reports achievement or carries
a tool call (the code appends no user turn on a continuing no-tool round, so
the original unconditional claim fails), the transcript strictly alternates
user/assistant starting from the engine's initial user turn, every assistant
turn is the verbatim Endpoint reply text of some round, and every user turn
after the first is one of the four engine-synthesized templates. -/
theorem transcript_alternation_amended {σ : Type} (env : GoalMode.Env σ)
    (q : String) (spec0 : σ) (img0 : String) (maxIter : Nat)
    (hdec : ∀ i, i < maxIter → (env.vlm i).success = true →
      (env.vlm i).parsed.goal_achieved = true ∨
      ((env.vlm i).parsed.tool_call).isSome = true) :
    GoalMode.Alternates (GoalMode.execute env q spec0 img0 maxIter [] []).messages ∧
    (GoalMode.execute env q spec0 img0 maxIter [] []).messages.head? =
      some (GoalMode.initialUserMsg q img0) ∧
    (∀ m ∈ (GoalMode.execute env q spec0 img0 maxIter [] []).messages,
      m.role = GoalMode.Role.assistant →
      ∃ i, m.content = [GoalMode.ContentPart.text ((env.vlm i).content)]) ∧
    (∀ m ∈ (GoalMode.execute env q spec0 img0 maxIter [] []).messages.tail,
      m.role = GoalMode.Role.user → GoalMode.EngineSynthesized m) := by
  have h := goalLoop_transcript env maxIter 0
    { messages := [GoalMode.initialUserMsg q img0], iterations := [],
      currentSpec := spec0, currentImage := img0 }
    (fun i h1 h2 => hdec i (by omega))
    (List.chain'_singleton _)
    ⟨GoalMode.initialUserMsg q img0, rfl, rfl⟩
    (by
      intro m hm hrole
      simp only [List.mem_singleton] at hm
      subst hm
      cases hrole)
    (by intro m hm; cases hm)
  exact h

/-- C3 witness: under an Endpoint that calls a tool on round 0 and achieves
on round 1, the resulting transcript alternates and starts at the initial
user turn. -/
theorem transcript_alternation_amended_witness :
    GoalMode.Alternates
      (GoalMode.execute envToolThenAchieve "q" 0 "img" 2 [] []).messages ∧
    (GoalMode.execute envToolThenAchieve "q" 0 "img" 2 [] []).messages.head? =
      some (GoalMode.initialUserMsg "q" "img") := by
  have h := transcript_alternation_amended envToolThenAchieve "q" 0 "img" 2
    (fun i hi hs => by
      match i, hi with
      | 0, _ => right; rfl
      | 1, _ => left; rfl)
  exact ⟨h.1, h.2.1⟩
